/-
Verification of the Ordered Task Engine (XCSoar fork for PEV start).

Shallow embedding of the code in `src/Engine/Task/Ordered/OrderedTask.cpp`,
`src/Engine/Task/Stats/StartStats.cpp` and `src/NMEA/Checksum.hpp`.
Machine `unsigned` values are modelled as `Nat`; `double` quantities
(distances, times, altitudes) are modelled as `ℚ`.  Code of collaborator
classes that is not part of the repository snapshot (observation-zone
predicates, the task-advance state machine, great-circle geometry, the
Dijkstra solvers) is abstracted by explicit oracle parameters, as noted
in the doc comment of each definition that uses one.
-/
import Mathlib

/-! ## NMEA checksum (src/NMEA/Checksum.hpp) -/

/-- Loop of the NUL-terminated `NMEAChecksum(const char *)` overload: XOR the
bytes into the accumulator until the end of the string; when `stop_at_star`
is true (the Apple build configuration) the loop also stops at an
asterisk (byte 42).  The list holds the bytes of the string before the
terminating NUL. -/
def nmeaXorRun (stop_at_star : Bool) : List Nat → Nat → Nat
  | [], acc => acc
  | c :: rest, acc =>
    if stop_at_star ∧ c = 42 then acc
    else nmeaXorRun stop_at_star rest (Nat.xor acc c)

/-- Embedding of `NMEAChecksum(const char *p)`: skip one leading dollar
sign (36) or exclamation mark (33), then XOR the remaining bytes.
`stop_at_star` selects the platform-conditional loop bound of the source. -/
def NMEAChecksumCString (stop_at_star : Bool) (p : List Nat) : Nat :=
  let q := match p with
    | c :: rest => if c = 36 ∨ c = 33 then rest else p
    | [] => p
  nmeaXorRun stop_at_star q 0

/-- Embedding of `NMEAChecksum(const char *p, unsigned length)`: when the
length is positive and the first byte is a dollar sign or exclamation mark,
skip it and XOR the next `length - 1` bytes, otherwise XOR the first
`length` bytes. -/
def NMEAChecksumWithLength (p : List Nat) (length : Nat) : Nat :=
  match p with
  | c :: rest =>
    if 0 < length ∧ (c = 36 ∨ c = 33) then
      ((rest.take (length - 1)).foldl Nat.xor 0)
    else ((p.take length).foldl Nat.xor 0)
  | [] => (([] : List Nat).take length).foldl Nat.xor 0

/-! ## Incremental minimum-distance rescan (OrderedTask::ScanDistanceMin,
OrderedTask.cpp lines 228-257, and DistanceIsSignificant, lines 1251-1266) -/

/-- Geometry oracle for `ScanDistanceMin`.  Locations are abstract tokens.
`flatSqDist` stands for `SearchPoint::FlatSquareDistanceTo` after projecting
both locations (external geometry code); `dist` stands for the `unsigned`
truncation of `GeoPoint::Distance` from a location to the active task
point's waypoint; `solve` stands for the effect of `RunDijsktraMin` on the
cached minimum distance, returning `none` when the solver fails and leaves
the cache unchanged. -/
structure ScanMinEnv where
  flatSqDist : Nat → Nat → Nat
  dist : Nat → Nat
  solve : Nat → Option ℚ

/-- Cache state read and written by `ScanDistanceMin`: the member
`last_min_location` (invalid = `none`) and the cached minimum distance
that `task_points.front()->ScanDistanceMin()` reports. -/
structure ScanMinState where
  last_min_location : Option Nat
  cache : ℚ

/-- Embedding of the body of `OrderedTask::ScanDistanceMin(location, full)`.
Mirrors the source: when `full` is false, the location and the cached
location are valid, and `DistanceIsSignificant` holds (flat squared
distance greater than 1 * 1), the distances from the old and new location
to the active waypoint are compared; a full re-solve is forced when either
truncated distance is below 2000 or the two differ by the 21/20 ratio
test.  Returns (re-solve ran, new state, returned distance). -/
def ScanDistanceMinStep (env : ScanMinEnv) (st : ScanMinState) (location : Nat)
    (location_valid full active_exists : Bool) : Bool × ScanMinState × ℚ :=
  let full :=
    match st.last_min_location with
    | some lastLoc =>
      if ¬full ∧ location_valid ∧ env.flatSqDist location lastLoc > 1 * 1 then
        if active_exists then
          let last_distance := env.dist lastLoc
          let cur_distance := env.dist location
          if last_distance < 2000 ∨ cur_distance < 2000 ∨
              last_distance * 20 ≥ cur_distance * 21 ∨
              cur_distance * 20 ≥ last_distance * 21
          then true else full
        else full
      else full
    | none => full
  if full then
    let newCache := (env.solve location).getD st.cache
    (true, ⟨some location, newCache⟩, newCache)
  else (false, st, st.cache)

/-! ## Task data model (OrderedTask.hpp state embedded positionally) -/

/-- Task-point kind tag, standing for the `TaskPointType` of a point
(START / intermediate / FINISH as used by `ScanStartFinish`). -/
inductive TPKind
  | start
  | intermediate
  | finish
deriving DecidableEq, Repr

/-- Observation-zone shape as far as `OrderedTask.cpp` inspects it:
`GetCylinderRadiusOrMinusOne` only distinguishes a `CylinderZone` (with its
radius) from every other shape. -/
inductive OZShape
  | cylinder (radius : ℚ)
  | other
deriving DecidableEq, Repr

/-- Embedding of an `OrderedTaskPoint`.  `wp` is the waypoint identity,
`pred_ok`/`succ_ok` stand for the factory predicates
`IsPredecessorAllowed`/`IsSuccessorAllowed` of the point (external code),
`prev`/`next` model the non-owning neighbour pointers as waypoint identities
(`none` = null), and the `has_entered`/`has_exited`/`exited_*` fields model
the sampled transition state with the exited `AircraftState` snapshot
(modelled from the spec: the scored state of a start point is recorded on
its exit transition).  `fai_finish_height` models the value stored by
`SetFaiFinishHeight`. -/
structure TaskPointM where
  wp : Nat
  kind : TPKind
  shape : OZShape
  pred_ok : Bool
  succ_ok : Bool
  prev : Option Nat
  next : Option Nat
  has_entered : Bool
  has_exited : Bool
  exited_time : ℚ
  exited_alt : ℚ
  exited_gs : ℚ
  fai_finish_height : ℚ
deriving DecidableEq, Repr

/-- Structural state of an `OrderedTask`: the owned point vector, the
optional start points, the active index and the `last_min_location`
member (modelled as a waypoint/location token, `none` = invalid). -/
structure OrderedTaskState where
  task_points : List TaskPointM
  optional_start_points : List TaskPointM
  active_task_point : Nat
  last_min_location : Option Nat
deriving DecidableEq, Repr

/-- Embedding of the free function `GetCylinderRadiusOrMinusOne`
(OrderedTask.cpp lines 47-54): the radius when the zone is a cylinder,
-1 otherwise. -/
def GetCylinderRadiusOrMinusOne : OZShape → ℚ
  | .cylinder r => r
  | .other => -1

/-- Embedding of `OrderedTaskPoint::Equals` as far as this file needs it:
two points are equal when their waypoint, type and observation zone
agree (neighbour links are not part of the comparison). -/
def tpEquals (a b : TaskPointM) : Bool :=
  a.wp = b.wp ∧ a.kind = b.kind ∧ a.shape = b.shape

/-- The cached `taskpoint_start` member as recomputed by `ScanStartFinish`
(OrderedTask.cpp lines 792-812): the front point when it is a START point. -/
def taskpointStart (t : OrderedTaskState) : Option TaskPointM :=
  match t.task_points with
  | p :: _ => if p.kind = TPKind.start then some p else none
  | [] => none

/-- The cached `taskpoint_finish` member as recomputed by
`ScanStartFinish`: the back point when the task has more than one point
and the back is a FINISH point. -/
def taskpointFinish (t : OrderedTaskState) : Option TaskPointM :=
  if t.task_points.length > 1 then
    match t.task_points.getLast? with
    | some p => if p.kind = TPKind.finish then some p else none
    | none => none
  else none

/-- Embedding of `OrderedTask::TaskStarted(soft)` (OrderedTask.cpp lines
1225-1239). -/
def TaskStarted (t : OrderedTaskState) (soft : Bool) : Bool :=
  match taskpointStart t with
  | some s => s.has_exited || (soft && t.active_task_point > 0)
  | none => false

/-- Neighbour rewiring on the point vector: the core of
`OrderedTask::SetNeighbours(position)` (OrderedTask.cpp lines 749-771)
restricted to `task_points`.  Stores the waypoint identity of the
previous/next slot into the point at `position`; out-of-range positions do
nothing. -/
def setNeighboursPts (pts : List TaskPointM) (position : Nat) : List TaskPointM :=
  if h : position < pts.length then
    let prev : Option Nat :=
      if hp : position > 0 then some (pts.get ⟨position - 1, by omega⟩).wp else none
    let next : Option Nat :=
      if hn : position + 1 < pts.length then some (pts.get ⟨position + 1, hn⟩).wp else none
    pts.set position { pts.get ⟨position, h⟩ with prev := prev, next := next }
  else pts

/-- Embedding of `OrderedTask::SetNeighbours(position)`: rewires the point
at `position` and, when `position` is 0, gives every optional start point
the same neighbours as slot 0. -/
def SetNeighbours (t : OrderedTaskState) (position : Nat) : OrderedTaskState :=
  if h : position < t.task_points.length then
    let prev : Option Nat :=
      if hp : position > 0 then some (t.task_points.get ⟨position - 1, by omega⟩).wp else none
    let next : Option Nat :=
      if hn : position + 1 < t.task_points.length then
        some (t.task_points.get ⟨position + 1, hn⟩).wp
      else none
    let pts := t.task_points.set position
      { t.task_points.get ⟨position, h⟩ with prev := prev, next := next }
    let opts :=
      if position = 0 then
        t.optional_start_points.map (fun p => { p with prev := prev, next := next })
      else t.optional_start_points
    { t with task_points := pts, optional_start_points := opts }
  else t

/-- Embedding of `OrderedTask::Remove(position)` (OrderedTask.cpp lines
826-845): out-of-range returns false unchanged; otherwise the active index
is decremented when it is past the removed slot or is the (positive) last
index, the slot is erased, and the neighbours of the slots now at
`position` and `position - 1` are rewired. -/
def Remove (t : OrderedTaskState) (position : Nat) : Bool × OrderedTaskState :=
  if position ≥ t.task_points.length then (false, t)
  else
    let active :=
      if t.active_task_point > position ∨
          (t.active_task_point > 0 ∧ t.active_task_point = t.task_points.length - 1)
      then t.active_task_point - 1 else t.active_task_point
    let t1 : OrderedTaskState :=
      { t with active_task_point := active, task_points := t.task_points.eraseIdx position }
    let t2 := if position < t1.task_points.length then SetNeighbours t1 position else t1
    let t3 := if position > 0 then SetNeighbours t2 (position - 1) else t2
    (true, t3)

/-- Embedding of `OrderedTask::RemoveOptionalStart(position)`
(OrderedTask.cpp lines 847-859). -/
def RemoveOptionalStart (t : OrderedTaskState) (position : Nat) : Bool × OrderedTaskState :=
  if position ≥ t.optional_start_points.length then (false, t)
  else
    let t1 : OrderedTaskState :=
      { t with optional_start_points := t.optional_start_points.eraseIdx position }
    (true, if t1.task_points.length > 1 then SetNeighbours t1 0 else t1)

/-- Embedding of `OrderedTask::Append(new_tp)` (OrderedTask.cpp lines
861-882).  Cloning a point is the identity on the modelled fields; on the
first point `last_min_location` is given the new point's location. -/
def OrderedTask.Append (t : OrderedTaskState) (new_tp : TaskPointM) : Bool × OrderedTaskState :=
  match t.task_points.getLast? with
  | some lastp =>
    if ¬new_tp.pred_ok ∨ ¬lastp.succ_ok then (false, t)
    else
      let i := t.task_points.length
      let t1 : OrderedTaskState := { t with task_points := t.task_points ++ [new_tp] }
      let t2 := SetNeighbours t1 (i - 1)
      (true, SetNeighbours t2 i)
  | none =>
    let t1 : OrderedTaskState :=
      { t with task_points := [new_tp], last_min_location := some new_tp.wp }
    (true, SetNeighbours t1 0)

/-- Embedding of `OrderedTask::AppendOptionalStart(new_tp)`
(OrderedTask.cpp lines 884-892). -/
def AppendOptionalStart (t : OrderedTaskState) (new_tp : TaskPointM) : Bool × OrderedTaskState :=
  let t1 : OrderedTaskState :=
    { t with optional_start_points := t.optional_start_points ++ [new_tp] }
  (true, if t1.task_points.length > 1 then SetNeighbours t1 0 else t1)

/-- Embedding of `OrderedTask::Insert(new_tp, position)` (OrderedTask.cpp
lines 894-922): a position at or past the end delegates to `Append`;
otherwise the factory predicates are checked, the active index is bumped
when at or past the position, and the neighbours of the three affected
slots are rewired. -/
def OrderedTask.Insert (t : OrderedTaskState) (new_tp : TaskPointM) (position : Nat) :
    Bool × OrderedTaskState :=
  if h : position ≥ t.task_points.length then OrderedTask.Append t new_tp
  else
    if (position > 0 ∧ ¬new_tp.pred_ok) ∨ ¬new_tp.succ_ok ∨
        (if hp : position > 0 then
          ¬(t.task_points.get ⟨position - 1, by omega⟩).succ_ok
        else False) ∨
        ¬(t.task_points.get ⟨position, by omega⟩).pred_ok then (false, t)
    else
      let active :=
        if t.active_task_point ≥ position then t.active_task_point + 1
        else t.active_task_point
      let t1 : OrderedTaskState :=
        { t with active_task_point := active,
                 task_points := t.task_points.insertIdx position new_tp }
      let t2 := if position > 0 then SetNeighbours t1 (position - 1) else t1
      let t3 := SetNeighbours t2 position
      (true, SetNeighbours t3 (position + 1))

/-- Embedding of `OrderedTask::Replace(new_tp, position)` (OrderedTask.cpp
lines 924-950). -/
def Replace (t : OrderedTaskState) (new_tp : TaskPointM) (position : Nat) :
    Bool × OrderedTaskState :=
  if h : position < t.task_points.length then
    if tpEquals (t.task_points.get ⟨position, h⟩) new_tp then (true, t)
    else if (position > 0 ∧ ¬new_tp.pred_ok) ∨
        (position + 1 < t.task_points.length ∧ ¬new_tp.succ_ok) then (false, t)
    else
      let t1 : OrderedTaskState := { t with task_points := t.task_points.set position new_tp }
      let t2 := if position > 0 then SetNeighbours t1 (position - 1) else t1
      let t3 := SetNeighbours t2 position
      let t4 := if position + 1 < t1.task_points.length then SetNeighbours t3 (position + 1)
                else t3
      (true, t4)
  else (false, t)

/-- Embedding of `OrderedTask::ReplaceOptionalStart(new_tp, position)`
(OrderedTask.cpp lines 953-969). -/
def ReplaceOptionalStart (t : OrderedTaskState) (new_tp : TaskPointM) (position : Nat) :
    Bool × OrderedTaskState :=
  if h : position < t.optional_start_points.length then
    if tpEquals (t.optional_start_points.get ⟨position, h⟩) new_tp then (true, t)
    else
      let t1 : OrderedTaskState :=
        { t with optional_start_points := t.optional_start_points.set position new_tp }
      (true, SetNeighbours t1 0)
  else (false, t)

/-- Embedding of `OrderedTask::Relocate(position, waypoint)`
(OrderedTask.cpp lines 1452-1463): clones the point at `position` with the
new waypoint and delegates to `Replace`. -/
def Relocate (t : OrderedTaskState) (position : Nat) (waypoint : Nat) :
    Bool × OrderedTaskState :=
  if h : position ≥ t.task_points.length then (false, t)
  else
    let old := t.task_points.get ⟨position, by omega⟩
    Replace t { old with wp := waypoint } position

/-- Embedding of `OrderedTask::SetActiveTaskPoint(index)` (OrderedTask.cpp
lines 972-981), threading the `task_advance` armed flag that
`SetArmed(false)` clears. -/
def SetActiveTaskPointF (t : OrderedTaskState) (armed : Bool) (index : Nat) :
    OrderedTaskState × Bool :=
  if index ≥ t.task_points.length ∨ index = t.active_task_point then (t, armed)
  else ({ t with active_task_point := index }, false)

/-- Embedding of `OrderedTask::SelectOptionalStart(pos)` (OrderedTask.cpp
lines 1562-1581): the front task point is pushed onto the end of the
optional list, slot 0 is overwritten with the chosen optional start, the
chosen slot is erased from the (extended) optional list, and the
neighbours of slots 0 and 1 are rewired.  The degenerate cases the source
excludes by assertion (`pos` out of range) and by construction (empty
task) leave the state unchanged. -/
def SelectOptionalStart (t : OrderedTaskState) (pos : Nat) : OrderedTaskState :=
  match t.task_points with
  | [] => t
  | front :: rest =>
    let opts1 := t.optional_start_points ++ [front]
    match opts1.get? pos with
    | none => t
    | some sel =>
      let t1 : OrderedTaskState :=
        { t with task_points := sel :: rest, optional_start_points := opts1.eraseIdx pos }
      let t2 := SetNeighbours t1 0
      if t2.task_points.length > 1 then SetNeighbours t2 1 else t2

/-! ## Distance scans (OrderedTask.cpp lines 325-435) -/

/-- Embedding of `OrderedTask::ScanDistanceNominal` (OrderedTask.cpp lines
384-403).  `D` stands for `task_points.front()->ScanDistanceNominal()`
(modelled from the spec: the nominal center-to-center task distance summed
by the external `TaskLeg` code).  The start cylinder radius is subtracted
when positive and below `d`, then the finish cylinder radius when positive
and below the already reduced `d`. -/
def ScanDistanceNominalM (t : OrderedTaskState) (D : ℚ) : ℚ :=
  match t.task_points with
  | [] => 0
  | first :: rest =>
    let d := D
    let radius := GetCylinderRadiusOrMinusOne first.shape
    let d := if radius > 0 ∧ radius < d then d - radius else d
    let lastp := (first :: rest).getLast (by simp)
    let radius := GetCylinderRadiusOrMinusOne lastp.shape
    if radius > 0 ∧ radius < d then d - radius else d

/-- Embedding of `OrderedTask::ScanDistanceScored` (lines 405-411): 0 on an
empty task, otherwise the value reported by the front point's scan, which
lives in external `TaskLeg` code and is abstracted as `f`. -/
def ScanDistanceScored (t : OrderedTaskState) (f : TaskPointM → ℚ) : ℚ :=
  match t.task_points with
  | [] => 0
  | p :: _ => f p

/-- Embedding of `OrderedTask::ScanDistanceRemaining` (lines 413-419),
front-point scan abstracted as `f`. -/
def ScanDistanceRemaining (t : OrderedTaskState) (f : TaskPointM → ℚ) : ℚ :=
  match t.task_points with
  | [] => 0
  | p :: _ => f p

/-- Embedding of `OrderedTask::ScanDistanceTravelled` (lines 421-427),
front-point scan abstracted as `f`. -/
def ScanDistanceTravelled (t : OrderedTaskState) (f : TaskPointM → ℚ) : ℚ :=
  match t.task_points with
  | [] => 0
  | p :: _ => f p

/-- Embedding of `OrderedTask::ScanDistancePlanned` (lines 429-435),
front-point scan abstracted as `f`. -/
def ScanDistancePlanned (t : OrderedTaskState) (f : TaskPointM → ℚ) : ℚ :=
  match t.task_points with
  | [] => 0
  | p :: _ => f p

/-- Embedding of `OrderedTask::ScanDistanceMax` (lines 325-349): 0 on an
empty task, otherwise the solver runs and the front point's
`ScanDistanceMax` value (abstracted as `f`, the solver write-backs being
external) is returned. -/
def ScanDistanceMax (t : OrderedTaskState) (f : TaskPointM → ℚ) : ℚ :=
  match t.task_points with
  | [] => 0
  | p :: _ => f p

/-- The return expression of `OrderedTask::ScanDistanceMin` (line 256):
`task_points.front()->ScanDistanceMin()` with NO emptiness guard anywhere
in the function.  `none` models the out-of-bounds `front()` call on an
empty vector; the front point's cached scan value is abstracted as `f`.
The re-solve decision logic of the same function is embedded separately
as `ScanDistanceMinStep`. -/
def ScanDistanceMinReturn (t : OrderedTaskState) (f : TaskPointM → ℚ) : Option ℚ :=
  t.task_points.head?.map f

/-! ## PEV start gate (OrderedTask::UpdateAfterPEV lines 654-714 and
OrderedTask::SetPEV lines 716-732) -/

/-- Start-gate settings consumed by `UpdateAfterPEV`: `score_pev`,
`pev_start_wait_time` and `pev_start_window`, the two durations in
seconds. -/
structure PEVSettings where
  score_pev : Bool
  pev_start_wait_time : Nat
  pev_start_window : Nat
deriving DecidableEq, Repr

/-- Rough time span with minute resolution; `none` is
`RoughTime::Invalid()`.  Modelled from the spec: `RoughTime` is a
minutes-since-midnight clock value. -/
structure RoughTimeSpanM where
  start : Option Nat
  end_time : Option Nat
deriving DecidableEq, Repr

/-- Modelled from the spec: `RoughTime::FromSinceMidnight(state.time)`
truncates the second-of-day timestamp to whole minutes. -/
def RoughTimeFromSinceMidnight (seconds : Nat) : Nat := seconds / 60

/-- Embedding of `OrderedTask::UpdateAfterPEV(state, bt)`.  Returns `none`
when `state.time` is negative (the source returns early, leaving the
span unchanged); otherwise returns the new `open_time_span` together with
the flag telling whether `stats.pev_based_advance_ready` was set.  The
wait time is truncated to whole minutes (`duration_cast`) and one minute
is added when `bt.second > 0`; with `score_pev` the end stays invalid,
otherwise a positive `pev_start_window` bounds the span. -/
def UpdateAfterPEV (s : PEVSettings) (state_time : Int) (bt_second : Nat) :
    Option (RoughTimeSpanM × Bool) :=
  if state_time < 0 then none
  else
    let new_start := RoughTimeFromSinceMidnight state_time.toNat
    if s.score_pev then
      let new_start :=
        if s.pev_start_wait_time > 0 then
          let t := s.pev_start_wait_time / 60
          let t := if bt_second > 0 then t + 1 else t
          new_start + t
        else new_start
      some (⟨some new_start, none⟩, true)
    else
      let new_start :=
        if s.pev_start_wait_time > 0 then
          let t := s.pev_start_wait_time / 60
          let t := if bt_second > 0 then t + 1 else t
          new_start + t
        else new_start
      let new_end :=
        if s.pev_start_window > 0 then some (new_start + s.pev_start_window / 60)
        else none
      some (⟨some new_start, new_end⟩, false)

/-- Embedding of `OrderedTask::SetPEV(bt)`: fails when `last_state_time`
is undefined, or when the task has a start point whose gate is PEV-scored
and the open time span has not yet begun at `last_state_time`; otherwise
the PEV is latched. -/
def SetPEV (last_state_time_defined : Bool) (has_start : Bool)
    (start_score_pev : Bool) (open_has_begun : Bool) : Bool :=
  if ¬last_state_time_defined then false
  else if has_start ∧ start_score_pev ∧ ¬open_has_begun then false
  else true

/-- Composition `SetPEV(bt)` then `UpdateAfterPEV(state, bt)` as the
callers perform it: `UpdateAfterPEV` only runs when the PEV was latched.
`none` means the open time span was not changed. -/
def SetPEVThenUpdate (last_state_time_defined has_start open_has_begun : Bool)
    (s : PEVSettings) (state_time : Int) (bt_second : Nat) :
    Option (RoughTimeSpanM × Bool) :=
  if SetPEV last_state_time_defined has_start s.score_pev open_has_begun then
    UpdateAfterPEV s state_time bt_second
  else none

/-! ## Transition engine (OrderedTask::CheckTransitions lines 451-553,
CheckTransitionOptionalStart lines 555-585, CheckTransitionPoint lines
587-621, StartStats::SetStarted from StartStats.cpp) -/

/-- Embedding of an `AircraftState` snapshot as far as the transition
engine consumes it. -/
structure AircraftStateM where
  time : ℚ
  altitude : ℚ
  ground_speed : ℚ
  flying : Bool
deriving DecidableEq, Repr

/-- Embedding of `StartStats` (StartStats.hpp): an undefined `time` is the
sentinel -1 (`TimeStamp::Undefined()`), matching `HasStarted`. -/
structure StartStatsM where
  advanced_by_pev : Bool
  time : ℚ
  altitude : ℚ
  ground_speed : ℚ
deriving DecidableEq, Repr

/-- Embedding of `StartStats::SetStarted(aircraft, pev)` (StartStats.cpp
lines 9-18): copies time, altitude and ground speed from the aircraft
state and records the pev flag. -/
def StartStatsM.SetStarted (a : AircraftStateM) (pev : Bool) : StartStatsM :=
  ⟨pev, a.time, a.altitude, a.ground_speed⟩

/-- Statistics fields of `TaskStats` touched by `CheckTransitions`. -/
structure TaskStatsM where
  start : StartStatsM
  task_finished : Bool
  pev_based_advance_ready : Bool
  need_to_arm : Bool
deriving DecidableEq, Repr

/-- Whole engine state threaded through `CheckTransitions`: the task
structure, the stats, and the armed flag of the external `task_advance`
state machine. -/
structure EngineState where
  task : OrderedTaskState
  stats : TaskStatsM
  armed : Bool
deriving DecidableEq, Repr

/-- Events fired through the `TaskEvents` sink, tagged with the waypoint
identity of the point they concern. -/
inductive TaskEvent
  | enterTransition (wp : Nat)
  | exitTransition (wp : Nat)
  | activeAdvanced (wp : Nat) (index : Nat)
  | requestArm (wp : Nat)
  | taskStart
  | taskFinish
deriving DecidableEq, Repr

/-- Per-call oracle for the collaborator code `CheckTransitions` invokes
but whose sources are outside this repository snapshot: bounding-box
overlap (`nearby`), the `TransitionEnter`/`TransitionExit` predicates of
each point, `IsInSector`, the booleans returned by
`UpdateSampleNear`/`UpdateSampleFar`, the same data for each optional
start point (indexed separately), `TaskAdvance::CheckReadyToAdvance`,
the three reads of `TaskAdvance::NeedToArm` (before and after the
ready-to-advance call on point `i`, and the final read stored into
`stats.need_to_arm`), and `FinishPoint::CalculateFinishHeightFromStart`.
Each function is indexed by the slot the loop examines; since the loop
visits every slot at most once per call, a per-call oracle captures any
behaviour of the real collaborators. -/
structure CTOracle where
  nearby : Nat → Bool
  enter : Nat → Bool
  exitZ : Nat → Bool
  in_sector : Nat → Bool
  sample_near : Nat → Bool
  sample_far : Nat → Bool
  opt_nearby : Nat → Bool
  opt_enter : Nat → Bool
  opt_exit : Nat → Bool
  opt_in_sector : Nat → Bool
  opt_sample_near : Nat → Bool
  opt_sample_far : Nat → Bool
  ready_to_advance : Nat → Bool → Bool → Bool
  need_to_arm_pre : Nat → Bool
  need_to_arm_post : Nat → Bool
  need_to_arm_final : Bool
  calc_finish_height : ℚ → ℚ

/-- Transition data of one point for one `CheckTransitionPoint` call. -/
structure PointOracle where
  nearby : Bool
  enter : Bool
  exitZ : Bool
  in_sector : Bool
  sample_near : Bool
  sample_far : Bool

/-- Embedding of `OrderedTask::CheckTransitionPoint` (lines 587-621): when
the point is nearby and its enter/exit predicate fires, the sticky
transition flags are set, the corresponding event is emitted and the
point's latched state is updated (modelled from the spec: `has_entered` /
`has_exited` latch, and the exited `AircraftState` snapshot is recorded on
exit).  For a start point, `UpdateStartTransition` (lines 1306-1320) then
resets the point when the aircraft left the zone without a valid exit.
Returns the updated point, the sticky flags, the sample-update boolean
(`UpdateSampleNear` when nearby else `UpdateSampleFar`) and the events. -/
def checkTransitionPoint (po : PointOracle) (p : TaskPointM) (state : AircraftStateM)
    (t_enter t_exit : Bool) (active_is_zero : Bool) (is_start : Bool) :
    TaskPointM × Bool × Bool × Bool × List TaskEvent :=
  let fireEnter := po.nearby && po.enter
  let p1 := if fireEnter then { p with has_entered := true } else p
  let evs1 := if fireEnter then [TaskEvent.enterTransition p.wp] else []
  let t_enter := t_enter || fireEnter
  let fireExit := po.nearby && po.exitZ
  let p2 := if fireExit then
      { p1 with has_exited := true, exited_time := state.time,
                exited_alt := state.altitude, exited_gs := state.ground_speed }
    else p1
  let evs2 := evs1 ++ (if fireExit then [TaskEvent.exitTransition p.wp] else [])
  let t_exit := t_exit || fireExit
  let p3 := if is_start then
      (if active_is_zero then p2
       else if ¬p2.has_exited ∧ ¬po.in_sector then
         { p2 with has_entered := false, has_exited := false }
       else p2)
    else p2
  let fu := if po.nearby then po.sample_near else po.sample_far
  (p3, t_enter, t_exit, fu, evs2)

/-- The oracle slice for optional start point `idx`. -/
def optPointOracle (o : CTOracle) (idx : Nat) : PointOracle :=
  ⟨o.opt_nearby idx, o.opt_enter idx, o.opt_exit idx, o.opt_in_sector idx,
   o.opt_sample_near idx, o.opt_sample_far idx⟩

/-- The oracle slice for task point `i`. -/
def taskPointOracle (o : CTOracle) (i : Nat) : PointOracle :=
  ⟨o.nearby i, o.enter i, o.exitZ i, o.in_sector i, o.sample_near i, o.sample_far i⟩

/-- Iteration of `CheckTransitionOptionalStart` (lines 567-583) over the
optional start list starting at absolute index `idx` with the sticky
transition flags and accumulated `full_update`.  Returns the updated
list, the flags, `full_update`, the events, the selected index (if some
point fired) and the number of points examined. -/
def ctOptGo (o : CTOracle) (state : AircraftStateM) (active_is_zero : Bool) :
    List TaskPointM → Nat → Bool → Bool → Bool →
    List TaskPointM × Bool × Bool × Bool × List TaskEvent × Option Nat × Nat
  | [], _, te, tx, fu => ([], te, tx, fu, [], none, 0)
  | p :: rest, idx, te, tx, fu =>
    let r := checkTransitionPoint (optPointOracle o idx) p state te tx active_is_zero true
    let p' := r.1
    let te' := r.2.1
    let tx' := r.2.2.1
    let fu' := fu || r.2.2.2.1
    let evs := r.2.2.2.2
    if te' || tx' then (p' :: rest, te', tx', fu', evs, some idx, 1)
    else
      let rec' := ctOptGo o state active_is_zero rest (idx + 1) te' tx' fu'
      (p' :: rec'.1, rec'.2.1, rec'.2.2.1, rec'.2.2.2.1, evs ++ rec'.2.2.2.2.1,
       rec'.2.2.2.2.2.1, rec'.2.2.2.2.2.2 + 1)

/-- Embedding of `OrderedTask::CheckTransitionOptionalStart` (lines
555-585): every optional start point is checked in order with the sticky
flags; the first one that leaves the flags set is selected into slot 0 by
`SelectOptionalStart` and the loop returns at once. -/
def CheckTransitionOptionalStart (o : CTOracle) (task : OrderedTaskState)
    (state : AircraftStateM) (te tx : Bool) :
    OrderedTaskState × Bool × Bool × Bool × List TaskEvent × Nat :=
  let a0 := task.active_task_point = 0
  let r := ctOptGo o state a0 task.optional_start_points 0 te tx false
  let task1 : OrderedTaskState := { task with optional_start_points := r.1 }
  let task2 := match r.2.2.2.2.2.1 with
    | some k => SelectOptionalStart task1 k
    | none => task1
  (task2, r.2.1, r.2.2.1, r.2.2.2.1, r.2.2.2.2.1, r.2.2.2.2.2.2)

/-- Mutable state of the `for` loop of `CheckTransitions`: the task (whose
slot 0 an optional start selection may replace), the `task_advance` armed
flag, the events fired so far and the accumulated `full_update` flag. -/
structure CTLoopState where
  task : OrderedTaskState
  armed : Bool
  events : List TaskEvent
  full_update : Bool
deriving DecidableEq, Repr

/-- Update of the last list element, used for
`taskpoint_finish->SetFaiFinishHeight(...)`. -/
def setBackFaiHeight (pts : List TaskPointM) (h : ℚ) : List TaskPointM :=
  match pts.getLast? with
  | some p => pts.set (pts.length - 1) { p with fai_finish_height := h }
  | none => pts

/-- Phase 1 of a loop iteration: at slot 0 the optional start points are
checked first (possibly swapping slot 0); elsewhere nothing happens.
Returns the (possibly changed) task, the sticky flags, the accumulated
`full_update` contribution and the events. -/
def ctOptPhase (o : CTOracle) (state : AircraftStateM) (i : Nat)
    (task : OrderedTaskState) :
    OrderedTaskState × Bool × Bool × Bool × List TaskEvent :=
  if i = 0 then
    let r := CheckTransitionOptionalStart o task state false false
    (r.1, r.2.1, r.2.2.1, r.2.2.2.1, r.2.2.2.2.1)
  else (task, false, false, false, [])

/-- Phase 3 of a loop iteration: the advance block guarded by
`i == active_task_point` (lines 499-523).  `CheckReadyToAdvance` disarms
and, when not at the last point, increments the active index via
`SetActiveTaskPoint`, fires `ActiveAdvanced` and forces `full_update`;
otherwise a newly needed arming fires `RequestArm`.  Returns the task,
the armed flag, the extra events, whether `full_update` was forced, and
the next loop index (the in-body `i++` of an advance skips one slot). -/
def ctAdvance (o : CTOracle) (n_task i : Nat) (task1 : OrderedTaskState)
    (p' : TaskPointM) (te1 tx1 armed : Bool) :
    OrderedTaskState × Bool × List TaskEvent × Bool × Nat :=
  if i = task1.active_task_point then
    let last_request_armed := o.need_to_arm_pre i
    if o.ready_to_advance i te1 tx1 then
      if i + 1 < n_task then
        let ra := SetActiveTaskPointF task1 false (i + 1)
        let evAdv := match ra.1.task_points.get? (i + 1) with
          | some q => [TaskEvent.activeAdvanced q.wp (i + 1)]
          | none => []
        (ra.1, ra.2, evAdv, true, i + 2)
      else (task1, false, [], false, i + 1)
    else if ¬last_request_armed ∧ o.need_to_arm_post i then
      (task1, armed, [TaskEvent.requestArm p'.wp], false, i + 1)
    else (task1, armed, [], false, i + 1)
  else (task1, armed, [], false, i + 1)

/-- One iteration of the `for` body of `CheckTransitions` (lines 479-524)
at index `i`: fresh sticky flags; the optional-start phase; then
`CheckTransitionPoint` on `task_points[i]`; then the advance block.
Returns the new loop state and the next loop index. -/
def ctBody (o : CTOracle) (state : AircraftStateM) (n_task : Nat) (i : Nat)
    (ls : CTLoopState) : CTLoopState × Nat :=
  let r0 := ctOptPhase o state i ls.task
  let task0 := r0.1
  let te0 := r0.2.1
  let tx0 := r0.2.2.1
  let fu0 := ls.full_update || r0.2.2.2.1
  let evs0 := r0.2.2.2.2
  match task0.task_points.get? i with
  | none => ({ ls with task := task0, full_update := fu0, events := ls.events ++ evs0 }, i + 1)
  | some p =>
    let a0 := task0.active_task_point = 0
    let r1 := checkTransitionPoint (taskPointOracle o i) p state te0 tx0 a0 (i = 0)
    let p' := r1.1
    let te1 := r1.2.1
    let tx1 := r1.2.2.1
    let fu1 := fu0 || r1.2.2.2.1
    let evs1 := evs0 ++ r1.2.2.2.2
    let task1 : OrderedTaskState :=
      { task0 with task_points := task0.task_points.set i p' }
    let r2 := ctAdvance o n_task i task1 p' te1 tx1 ls.armed
    (⟨r2.1, r2.2.1, ls.events ++ evs1 ++ r2.2.2.1,
      if r2.2.2.2.1 then true else fu1⟩, r2.2.2.2.2)

/-- The `for (int i = t_min; i <= t_max; i++)` loop of `CheckTransitions`,
driven by fuel (an upper bound on the remaining iterations; the index
strictly increases each round, so `t_max + 2` initial fuel is never
exhausted before `i > t_max`). -/
def ctLoop (o : CTOracle) (state : AircraftStateM) (n_task t_max : Nat) :
    Nat → Nat → CTLoopState → CTLoopState
  | 0, _, ls => ls
  | fuel + 1, i, ls =>
    if i > t_max then ls
    else
      let r := ctBody o state n_task i ls
      ctLoop o state n_task t_max fuel r.2 r.1

/-- Tail of `CheckTransitions` after the loop (lines 526-552):
`stats.need_to_arm` is refreshed, `stats.task_finished` is recomputed from
the finish point, and — at EVERY call where `TaskStarted()` holds —
`stats.start` is repopulated from the start point's exited state
(`SetStarted` with `pev = false`), `pev_based_advance_ready` is cleared
and the finish point's FAI finish height is recomputed from the start
altitude.  `TaskStart` fires when the recorded start time exceeds the
value captured at the beginning of the call; `TaskFinish` fires when
`task_finished` became true. -/
def checkTransitionsTail (o : CTOracle) (task : OrderedTaskState) (stats : TaskStatsM)
    (last_started_time : ℚ) (last_finished : Bool) :
    TaskStatsM × OrderedTaskState × List TaskEvent :=
  let stats1 := { stats with need_to_arm := o.need_to_arm_final }
  let finished := match taskpointFinish task with
    | some f => f.has_entered
    | none => false
  let stats2 := { stats1 with task_finished := finished }
  let started := TaskStarted task false
  let r :=
    if started then
      match taskpointStart task with
      | some s =>
        let start_state : AircraftStateM := ⟨s.exited_time, s.exited_alt, s.exited_gs, true⟩
        let stats3 := { stats2 with start := StartStatsM.SetStarted start_state false,
                                    pev_based_advance_ready := false }
        let task1 := match taskpointFinish task with
          | some _ =>
            { task with task_points :=
                setBackFaiHeight task.task_points (o.calc_finish_height stats3.start.altitude) }
          | none => task
        (stats3, task1)
      | none => (stats2, task)
    else (stats2, task)
  let stats4 := r.1
  let task1 := r.2
  let evs := (if stats4.start.time > last_started_time then [TaskEvent.taskStart] else []) ++
    (if stats4.task_finished && !last_finished then [TaskEvent.taskFinish] else [])
  (stats4, task1, evs)

/-- Embedding of `OrderedTask::CheckTransitions(state, state_last)` (lines
451-553).  Early returns: no cached start point, not flying, or an empty
task — each returns false with no state change and no events.  Otherwise
the loop runs over the window `[max(0, active - 1), min(n - 1, active)]`
and the tail updates the stats and fires `TaskStart` / `TaskFinish`.
Returns (`full_update`, new engine state, events in firing order). -/
def CheckTransitions (st : EngineState) (o : CTOracle) (state _state_last : AircraftStateM) :
    Bool × EngineState × List TaskEvent :=
  match taskpointStart st.task with
  | none => (false, st, [])
  | some _ =>
    if ¬state.flying then (false, st, [])
    else if st.task.task_points.length = 0 then (false, st, [])
    else
      let n_task := st.task.task_points.length
      let last_started_time := st.stats.start.time
      let last_finished := st.stats.task_finished
      let t_min := st.task.active_task_point - 1
      let t_max := min (n_task - 1) st.task.active_task_point
      let ls0 : CTLoopState := ⟨st.task, st.armed, [], false⟩
      let ls := ctLoop o state n_task t_max (t_max + 2) t_min ls0
      let r := checkTransitionsTail o ls.task st.stats last_started_time last_finished
      (ls.full_update, ⟨r.2.1, r.1, ls.armed⟩, ls.events ++ r.2.2)

/-! ## Specification-side definitions used by refinement claims -/

/-- Specification reading of the checksum (refinement reference, written
from the spec's words, to be compared with the two source embeddings):
skip exactly one leading dollar sign or exclamation mark if present, then
XOR all remaining bytes. -/
def nmeaSkipLead (p : List Nat) : List Nat :=
  match p with
  | c :: rest => if c = 36 ∨ c = 33 then rest else p
  | [] => []

/-- Specification reading of the checksum value. -/
def nmeaChecksumSpec (p : List Nat) : Nat :=
  (nmeaSkipLead p).foldl Nat.xor 0

/-- A task point carrying only a kind and a cylinder radius; the sampled
state is blank. -/
def mkCylPoint (w : Nat) (k : TPKind) (r : ℚ) : TaskPointM :=
  ⟨w, k, OZShape.cylinder r, true, true, none, none, false, false, 0, 0, 0, 0⟩

/-- The two-point task of the radius-subtraction rule: a cylinder start of
radius `r1` and a cylinder finish of radius `r2`. -/
def twoCylinderTask (r1 r2 : ℚ) : OrderedTaskState :=
  ⟨[mkCylPoint 0 TPKind.start r1, mkCylPoint 1 TPKind.finish r2], [], 0, none⟩

/-- A plain intermediate task point with blank sampled state. -/
def plainPoint (w : Nat) : TaskPointM :=
  ⟨w, TPKind.intermediate, OZShape.other, true, true, none, none, false, false, 0, 0, 0, 0⟩

/-- A start point with blank sampled state. -/
def plainStart (w : Nat) : TaskPointM :=
  ⟨w, TPKind.start, OZShape.other, true, true, none, none, false, false, 0, 0, 0, 0⟩

/-- A start point that has been entered and exited at time 100 s,
altitude 1000 m, ground speed 30 m/s. -/
def exitedStart : TaskPointM :=
  ⟨1, TPKind.start, OZShape.cylinder 1000, true, true, none, none, true, true, 100, 1000, 30, 0⟩

/-- A finish point not yet entered. -/
def cleanFinish : TaskPointM :=
  ⟨2, TPKind.finish, OZShape.cylinder 1000, true, true, none, none, false, false, 0, 0, 0, 0⟩

/-- A started two-point task: the start has been exited and the active
point is the finish. -/
def startedTask : OrderedTaskState := ⟨[exitedStart, cleanFinish], [], 1, none⟩

/-- Stats of an already-started task whose `pev_based_advance_ready` flag
has been raised again (by a later pilot event) after the start. -/
def startedStats : TaskStatsM := ⟨⟨false, 100, 1000, 30⟩, false, true, false⟩

/-- Engine state of the already-started task. -/
def startedEngine : EngineState := ⟨startedTask, startedStats, false⟩

/-- The all-quiet oracle: no point is nearby, no transition predicate
fires, no sample changes, advance never ready, arming never needed. -/
def silentOracle : CTOracle :=
  ⟨fun _ => false, fun _ => false, fun _ => false, fun _ => false, fun _ => false,
   fun _ => false, fun _ => false, fun _ => false, fun _ => false, fun _ => false,
   fun _ => false, fun _ => false, fun _ _ _ => false, fun _ => false, fun _ => false,
   false, fun _ => 0⟩

/-- An airborne aircraft state at time 200 s. -/
def airborneState : AircraftStateM := ⟨200, 1000, 30, true⟩

/-- Task of the S3 scenario: one primary start (wp 9), a finish, and two
optional starts (wp 10 and wp 11). -/
def optionalStartTask : OrderedTaskState :=
  ⟨[plainStart 9, cleanFinish], [plainStart 10, plainStart 11], 0, none⟩

/-- Oracle of the S3 scenario: only optional start 1 fires an enter
transition. -/
def optionalFiresOracle : CTOracle :=
  { silentOracle with opt_nearby := fun i => i = 1, opt_enter := fun i => i = 1 }

/-- Slot `j` of a point vector has consistent rewired neighbour links:
its `prev` holds the waypoint of slot `j - 1` (none at the front) and its
`next` the waypoint of slot `j + 1` (none at the back).  Trivially true
when the slot does not exist. -/
def neighboursOkAt (pts : List TaskPointM) (j : Nat) : Bool :=
  match pts[j]? with
  | none => true
  | some p =>
      decide (p.prev = if j = 0 then none else (pts[j - 1]?).map TaskPointM.wp) &&
      decide (p.next = (pts[j + 1]?).map TaskPointM.wp)

/-- Optional start point `j` fires a transition this call: it is nearby
and its enter or exit predicate holds. -/
def firesOpt (o : CTOracle) (j : Nat) : Bool :=
  o.opt_nearby j && (o.opt_enter j || o.opt_exit j)

/-! ## Theorems -/

/-- Helper: with no asterisk byte in the list, the checksum loop of the
NUL-terminated overload is a plain XOR fold for either platform
configuration. -/
theorem nmeaXorRun_eq_foldl (b : Bool) (q : List Nat) (acc : Nat)
    (hq : ∀ c ∈ q, c ≠ 42) : nmeaXorRun b q acc = q.foldl Nat.xor acc := by
  induction q generalizing acc with
  | nil => rfl
  | cons c rest ih =>
    have hc : c ≠ 42 := hq c (by simp)
    have hrest : ∀ x ∈ rest, x ≠ 42 := fun x hx => hq x (by simp [hx])
    simp only [nmeaXorRun, List.foldl_cons]
    rw [if_neg (by simp [hc]), ih _ hrest]

/-- Helper: an XOR fold of bytes below 256 stays below 256. -/
theorem foldl_xor_lt_256 (q : List Nat) (acc : Nat) (hacc : acc < 256)
    (hq : ∀ c ∈ q, c < 256) : q.foldl Nat.xor acc < 256 := by
  induction q generalizing acc with
  | nil => simpa using hacc
  | cons c rest ih =>
    have hc : c < 256 := hq c (by simp)
    have hrest : ∀ x ∈ rest, x < 256 := fun x hx => hq x (by simp [hx])
    simp only [List.foldl_cons]
    exact ih _ (by
      have h256 : (256 : Nat) = 2 ^ 8 := by norm_num
      rw [h256] at hacc hc ⊢
      exact Nat.xor_lt_two_pow hacc hc) hrest

/-- C10: for every NUL-terminated string with no asterisk (modelled as the
list of its bytes before the NUL, each nonzero), the two `NMEAChecksum`
overloads agree — `NMEAChecksum(p, strlen(p))` equals `NMEAChecksum(p)` in
either platform configuration — and both equal the specification value
that skips exactly one leading dollar sign or exclamation mark and XORs
the remaining bytes; with byte-valued input the result is an 8-bit
checksum. -/
theorem nmea_overloads_agree (p : List Nat) (b : Bool)
    (hstar : ∀ c ∈ p, c ≠ 42) (hbyte : ∀ c ∈ p, c < 256) :
    NMEAChecksumCString b p = NMEAChecksumWithLength p p.length ∧
    NMEAChecksumWithLength p p.length = nmeaChecksumSpec p ∧
    NMEAChecksumWithLength p p.length < 256 := by
  have hspec : NMEAChecksumWithLength p p.length = nmeaChecksumSpec p := by
    cases p with
    | nil => rfl
    | cons c rest =>
      simp only [NMEAChecksumWithLength, nmeaChecksumSpec, nmeaSkipLead, List.length_cons]
      by_cases hc : c = 36 ∨ c = 33
      · rw [if_pos ⟨Nat.succ_pos _, hc⟩, if_pos hc]
        simp
      · rw [if_neg (by tauto), if_neg hc]
        simp
  refine ⟨?_, hspec, ?_⟩
  · rw [hspec]
    cases p with
    | nil => rfl
    | cons c rest =>
      simp only [NMEAChecksumCString, nmeaChecksumSpec, nmeaSkipLead]
      by_cases hc : c = 36 ∨ c = 33
      · rw [if_pos hc]
        exact nmeaXorRun_eq_foldl b rest 0 (fun x hx => hstar x (by simp [hx]))
      · rw [if_neg hc]
        exact nmeaXorRun_eq_foldl b (c :: rest) 0 hstar
  · rw [hspec]
    cases p with
    | nil => simp [nmeaChecksumSpec, nmeaSkipLead]
    | cons c rest =>
      simp only [nmeaChecksumSpec, nmeaSkipLead]
      by_cases hc : c = 36 ∨ c = 33
      · rw [if_pos hc]
        exact foldl_xor_lt_256 rest 0 (by norm_num)
          (fun x hx => hbyte x (by simp [hx]))
      · rw [if_neg hc]
        exact foldl_xor_lt_256 (c :: rest) 0 (by norm_num) hbyte

/-- Witness for the C10 theorem at the concrete sentence bytes of
"$GPGGA". -/
theorem nmea_overloads_agree_witness :
    NMEAChecksumCString true [36, 71, 80, 71, 71, 65] =
      NMEAChecksumWithLength [36, 71, 80, 71, 71, 65] 6 ∧
    NMEAChecksumWithLength [36, 71, 80, 71, 71, 65] 6 =
      nmeaChecksumSpec [36, 71, 80, 71, 71, 65] ∧
    NMEAChecksumWithLength [36, 71, 80, 71, 71, 65] 6 < 256 :=
  nmea_overloads_agree [36, 71, 80, 71, 71, 65] true (by decide) (by decide)

/-- C1: in a call `ScanDistanceMin(location, full=false)` with a valid
location, a valid cached `last_min_location` whose projected flat squared
distance to `location` exceeds 1, and a valid active task point, the
Dijkstra re-solve is skipped — returning the cached distance and leaving
the state untouched — exactly when both the old and the new (truncated,
metre-valued) distances to the active waypoint are at least 2000 and
neither distance is at least 5% larger than the other (the source's 21/20
ratio test); otherwise the re-solve runs and `last_min_location` is
updated to `location`. -/
theorem scanDistanceMin_skip_iff (env : ScanMinEnv) (st : ScanMinState)
    (location lastLoc : Nat) (hlast : st.last_min_location = some lastLoc)
    (hsig : env.flatSqDist location lastLoc > 1) :
    ((ScanDistanceMinStep env st location true false true).1 = false ↔
      (2000 ≤ env.dist lastLoc ∧ 2000 ≤ env.dist location ∧
       env.dist lastLoc * 20 < env.dist location * 21 ∧
       env.dist location * 20 < env.dist lastLoc * 21)) ∧
    ((ScanDistanceMinStep env st location true false true).1 = false →
      ScanDistanceMinStep env st location true false true = (false, st, st.cache)) ∧
    ((ScanDistanceMinStep env st location true false true).1 = true →
      (ScanDistanceMinStep env st location true false true).2.1.last_min_location =
        some location) := by
  have hone : (1 : Nat) * 1 = 1 := by norm_num
  simp only [ScanDistanceMinStep, hlast, hone]
  by_cases hc : env.dist lastLoc < 2000 ∨ env.dist location < 2000 ∨
      env.dist lastLoc * 20 ≥ env.dist location * 21 ∨
      env.dist location * 20 ≥ env.dist lastLoc * 21
  · simp [hsig, hc]
    omega
  · simp [hsig, hc]
    omega

/-- Witness for C1: from 10000 m away, a 100 m advance (new distance
9900 m) skips the re-solve and returns the cached value unchanged; after
advancing 1500 m in total (new distance 8500 m) the re-solve runs and the
cached location is replaced by the new location.  Location tokens are
chosen so that `dist` is the distance itself and the flat squared
distance between the two fixes is 10000 > 1. -/
theorem scanDistanceMin_skip_iff_witness :
    ScanDistanceMinStep ⟨fun _ _ => 10000, fun x => x, fun _ => some 5⟩
        ⟨some 10000, 42⟩ 9900 true false true = (false, ⟨some 10000, 42⟩, 42) ∧
    ((ScanDistanceMinStep ⟨fun _ _ => 10000, fun x => x, fun _ => some 5⟩
        ⟨some 10000, 42⟩ 8500 true false true).1 = true ∧
      (ScanDistanceMinStep ⟨fun _ _ => 10000, fun x => x, fun _ => some 5⟩
        ⟨some 10000, 42⟩ 8500 true false true).2.1.last_min_location = some 8500) := by
  have h1 := scanDistanceMin_skip_iff ⟨fun _ _ => 10000, fun x => x, fun _ => some 5⟩
    ⟨some 10000, 42⟩ 9900 10000 rfl (by norm_num)
  have h2 := scanDistanceMin_skip_iff ⟨fun _ _ => 10000, fun x => x, fun _ => some 5⟩
    ⟨some 10000, 42⟩ 8500 10000 rfl (by norm_num)
  have h2t : (ScanDistanceMinStep ⟨fun _ _ => 10000, fun x => x, fun _ => some 5⟩
      ⟨some 10000, 42⟩ 8500 true false true).1 = true := by
    cases hb : (ScanDistanceMinStep ⟨fun _ _ => 10000, fun x => x, fun _ => some 5⟩
        ⟨some 10000, 42⟩ 8500 true false true).1
    · exact absurd (h2.1.mp hb) (by norm_num)
    · rfl
  exact ⟨h1.2.1 (h1.1.mpr (by norm_num)), h2t, h2.2.2 h2t⟩

/-- Counterexample to C3 as stated: with nominal distance D = 100 and
cylinder radii R1 = R2 = 60, both radii are below D, yet
`ScanDistanceNominal` returns 40 and not D − R1 − R2 = −20: the source
checks the finish radius against the already start-reduced distance. -/
theorem scanDistanceNominal_claim_counterexample :
    GetCylinderRadiusOrMinusOne (OZShape.cylinder 60) < (100 : ℚ) ∧
    ScanDistanceNominalM (twoCylinderTask 60 60) 100 = 40 ∧
    ScanDistanceNominalM (twoCylinderTask 60 60) 100 ≠ (100 : ℚ) - 60 - 60 := by
  refine ⟨by norm_num [GetCylinderRadiusOrMinusOne], ?_, ?_⟩ <;>
    norm_num [ScanDistanceNominalM, twoCylinderTask, mkCylPoint, GetCylinderRadiusOrMinusOne]

/-- C3 (amended): for a two-point task of a cylinder start of radius R1
and a cylinder finish of radius R2 with nominal center-to-center distance
D, `ScanDistanceNominal()` returns D − R1 − R2 whenever the radii are
nonnegative and R1 + R2 < D (equivalently R1 < D and R2 < D − R1). -/
theorem scanDistanceNominal_radius_subtraction (r1 r2 D : ℚ)
    (h1 : 0 ≤ r1) (h2 : 0 ≤ r2) (hd : r1 + r2 < D) :
    ScanDistanceNominalM (twoCylinderTask r1 r2) D = D - r1 - r2 := by
  simp only [ScanDistanceNominalM, twoCylinderTask, mkCylPoint, GetCylinderRadiusOrMinusOne,
    List.getLast]
  split_ifs with ha hb hb
  · ring
  · rcases eq_or_lt_of_le h2 with h2' | h2'
    · rw [← h2']; ring
    · exfalso; push_neg at hb; linarith [hb h2']
  · rcases eq_or_lt_of_le h1 with h1' | h1'
    · rw [← h1']; ring
    · exfalso; push_neg at ha; linarith [ha h1']
  · rcases eq_or_lt_of_le h1 with h1' | h1'
    · rcases eq_or_lt_of_le h2 with h2' | h2'
      · rw [← h1', ← h2']; ring
      · exfalso; push_neg at hb; linarith [hb h2']
    · exfalso; push_neg at ha; linarith [ha h1']

/-- Witness for the amended C3 at the S1 scenario numbers: R1 = R2 =
1000 m, D = 111195 m gives 109195 m. -/
theorem scanDistanceNominal_radius_subtraction_witness :
    ScanDistanceNominalM (twoCylinderTask 1000 1000) 111195 = 111195 - 1000 - 1000 :=
  scanDistanceNominal_radius_subtraction 1000 1000 111195 (by norm_num) (by norm_num)
    (by norm_num)

/-- C6: after a successful `SetPEV(bt)` followed by `UpdateAfterPEV(state,
bt)` with `score_pev = false`, a positive wait time w and a positive
window p, the start `open_time_span` becomes [t + ceil(w), t + ceil(w) +
p] in minutes, where t is `state.time` truncated to the minute and
ceil(w) is w in whole minutes plus one extra minute when `bt.second > 0`;
`pev_based_advance_ready` is not set. -/
theorem pev_start_window_update (s : PEVSettings) (has_start open_begun : Bool)
    (t : Int) (bt_second : Nat) (hscore : s.score_pev = false)
    (hw : 0 < s.pev_start_wait_time) (hp : 0 < s.pev_start_window) (ht : 0 ≤ t) :
    SetPEVThenUpdate true has_start open_begun s t bt_second =
      some (⟨some (t.toNat / 60 + (s.pev_start_wait_time / 60 +
                if 0 < bt_second then 1 else 0)),
             some (t.toNat / 60 + (s.pev_start_wait_time / 60 +
                if 0 < bt_second then 1 else 0) + s.pev_start_window / 60)⟩,
            false) := by
  have hnt : ¬t < 0 := not_lt.mpr ht
  simp only [SetPEVThenUpdate, SetPEV, UpdateAfterPEV, RoughTimeFromSinceMidnight, hscore,
    if_neg hnt]
  simp only [Bool.false_eq_true, and_false, false_and, if_false]
  rw [if_pos hw, if_pos hp]
  by_cases hb : bt_second > 0 <;> simp [hb]

/-- Witness for C6 at the S4 scenario: state time 12:03:20 (43400 s),
wait 5 min (300 s), window 10 min (600 s), `bt.second` = 20 > 0; the
span becomes [12:09, 12:19] (minutes 729 and 739). -/
theorem pev_start_window_update_witness :
    SetPEVThenUpdate true true false ⟨false, 300, 600⟩ 43400 20 =
      some (⟨some 729, some 739⟩, false) := by
  have h := pev_start_window_update ⟨false, 300, 600⟩ true false 43400 20 rfl
    (by norm_num) (by norm_num) (by norm_num)
  simpa using h

/-- Counterexample to C7 as stated: `Insert` called on an empty task with
the out-of-range position 5 does not return false and leave the task
unchanged — it delegates to `Append`, returns true, and appends the
point. -/
theorem insert_out_of_range_counterexample :
    (OrderedTask.Insert ⟨[], [], 0, none⟩ (plainPoint 7) 5).1 = true ∧
    (OrderedTask.Insert ⟨[], [], 0, none⟩ (plainPoint 7) 5).2 ≠
      (⟨[], [], 0, none⟩ : OrderedTaskState) := by
  constructor
  · rfl
  · intro h
    have := congrArg (fun t => t.task_points.length) h
    simp [OrderedTask.Insert, OrderedTask.Append, SetNeighbours, plainPoint] at this

/-- C7 (amended): a mutation call with an out-of-range index returns
false, throws nothing (the embedding is total) and leaves the task
unchanged for `Remove`, `Replace`, `Relocate`, `RemoveOptionalStart` and
`ReplaceOptionalStart`; `Insert` with an out-of-range position instead
delegates to `Append`, which can modify the task and return true. -/
theorem mutation_out_of_range (t : OrderedTaskState) (tp : TaskPointM) (pos wpt : Nat)
    (hpos : pos ≥ t.task_points.length) (hopt : pos ≥ t.optional_start_points.length) :
    Remove t pos = (false, t) ∧
    Replace t tp pos = (false, t) ∧
    Relocate t pos wpt = (false, t) ∧
    RemoveOptionalStart t pos = (false, t) ∧
    ReplaceOptionalStart t tp pos = (false, t) ∧
    OrderedTask.Insert t tp pos = OrderedTask.Append t tp := by
  refine ⟨?_, ?_, ?_, ?_, ?_, ?_⟩
  · simp [Remove, hpos]
  · simp [Replace, Nat.not_lt.mpr hpos]
  · simp [Relocate, hpos]
  · simp [RemoveOptionalStart, hopt]
  · simp [ReplaceOptionalStart, Nat.not_lt.mpr hopt]
  · simp [OrderedTask.Insert, hpos]

/-- Witness for the amended C7 on a concrete one-point task with
position 3 out of range on both lists. -/
theorem mutation_out_of_range_witness :
    Remove ⟨[plainPoint 1], [], 0, none⟩ 3 = (false, ⟨[plainPoint 1], [], 0, none⟩) ∧
    Replace ⟨[plainPoint 1], [], 0, none⟩ (plainPoint 2) 3 =
      (false, ⟨[plainPoint 1], [], 0, none⟩) ∧
    Relocate ⟨[plainPoint 1], [], 0, none⟩ 3 8 = (false, ⟨[plainPoint 1], [], 0, none⟩) ∧
    RemoveOptionalStart ⟨[plainPoint 1], [], 0, none⟩ 3 =
      (false, ⟨[plainPoint 1], [], 0, none⟩) ∧
    ReplaceOptionalStart ⟨[plainPoint 1], [], 0, none⟩ (plainPoint 2) 3 =
      (false, ⟨[plainPoint 1], [], 0, none⟩) ∧
    OrderedTask.Insert ⟨[plainPoint 1], [], 0, none⟩ (plainPoint 2) 3 =
      OrderedTask.Append ⟨[plainPoint 1], [], 0, none⟩ (plainPoint 2) :=
  mutation_out_of_range ⟨[plainPoint 1], [], 0, none⟩ (plainPoint 2) 3 8
    (by simp) (by simp)

/-- C8 evaluated at the failing input: on an empty task the six guarded
scan operations return 0, but the return expression of `ScanDistanceMin`
dereferences `task_points.front()` with no emptiness guard anywhere in the
function — modelled by `none` (no value) — instead of returning 0 as the
specification's EmptyTask rule requires. -/
theorem scan_empty_task_behaviour (f : TaskPointM → ℚ) (D : ℚ) :
    ScanDistanceNominalM ⟨[], [], 0, none⟩ D = 0 ∧
    ScanDistanceScored ⟨[], [], 0, none⟩ f = 0 ∧
    ScanDistanceRemaining ⟨[], [], 0, none⟩ f = 0 ∧
    ScanDistanceTravelled ⟨[], [], 0, none⟩ f = 0 ∧
    ScanDistancePlanned ⟨[], [], 0, none⟩ f = 0 ∧
    ScanDistanceMax ⟨[], [], 0, none⟩ f = 0 ∧
    ScanDistanceMinReturn ⟨[], [], 0, none⟩ f = none :=
  ⟨rfl, rfl, rfl, rfl, rfl, rfl, rfl⟩

/-- Helper: `SetNeighbours` leaves every slot other than `position`
untouched. -/
theorem SetNeighbours_get_ne (t : OrderedTaskState) (p j : Nat) (hne : j ≠ p) :
    (SetNeighbours t p).task_points[j]? = t.task_points[j]? := by
  simp only [SetNeighbours]
  split
  · exact List.getElem?_set_ne (Ne.symm hne)
  · rfl

/-- Helper: `SetNeighbours` never changes the waypoint stored in any
slot. -/
theorem SetNeighbours_wp (t : OrderedTaskState) (p j : Nat) :
    ((SetNeighbours t p).task_points[j]?).map TaskPointM.wp =
      (t.task_points[j]?).map TaskPointM.wp := by
  by_cases hj : j = p
  · subst hj
    simp only [SetNeighbours]
    split
    · rename_i hp
      rw [List.getElem?_set_self (by simpa using hp), List.getElem?_eq_getElem hp]
      rfl
    · rfl
  · rw [SetNeighbours_get_ne t p j hj]

/-- Helper: `SetNeighbours` stores the adjacent waypoints into the slot at
`position`. -/
theorem SetNeighbours_get_self (t : OrderedTaskState) (p : Nat)
    (hp : p < t.task_points.length) :
    (SetNeighbours t p).task_points[p]? = some
      { t.task_points.get ⟨p, hp⟩ with
        prev := if p = 0 then none else (t.task_points[p - 1]?).map TaskPointM.wp,
        next := (t.task_points[p + 1]?).map TaskPointM.wp } := by
  simp only [SetNeighbours]
  rw [dif_pos hp]
  simp only []
  rw [List.getElem?_set_self (by simpa using hp)]
  congr 1
  by_cases h0 : p > 0
  · rw [dif_pos h0]
    by_cases h1 : p + 1 < t.task_points.length
    · rw [dif_pos h1]
      rw [List.getElem?_eq_getElem (by omega : p - 1 < t.task_points.length),
        List.getElem?_eq_getElem h1]
      simp [if_neg (by omega : ¬p = 0), List.get_eq_getElem]
    · rw [dif_neg h1]
      rw [List.getElem?_eq_getElem (by omega : p - 1 < t.task_points.length),
        List.getElem?_eq_none (by omega), if_neg (by omega : ¬p = 0)]
      simp [List.get_eq_getElem]
  · rw [dif_neg h0]
    by_cases h1 : p + 1 < t.task_points.length
    · rw [dif_pos h1, List.getElem?_eq_getElem h1, if_pos (by omega : p = 0)]
      simp [List.get_eq_getElem]
    · rw [dif_neg h1, if_pos (by omega : p = 0), List.getElem?_eq_none (by omega)]
      simp

/-- Helper: `SetNeighbours` preserves the point-vector length. -/
theorem SetNeighbours_length (t : OrderedTaskState) (p : Nat) :
    (SetNeighbours t p).task_points.length = t.task_points.length := by
  simp only [SetNeighbours]
  split <;> simp

/-- Helper: `SetNeighbours` preserves the active index. -/
theorem SetNeighbours_active (t : OrderedTaskState) (p : Nat) :
    (SetNeighbours t p).active_task_point = t.active_task_point := by
  simp only [SetNeighbours]
  split <;> rfl

/-- Helper: `SetNeighbours` preserves the waypoint sequence. -/
theorem SetNeighbours_map_wp (t : OrderedTaskState) (p : Nat) :
    (SetNeighbours t p).task_points.map TaskPointM.wp =
      t.task_points.map TaskPointM.wp := by
  apply List.ext_getElem?
  intro j
  rw [List.getElem?_map, List.getElem?_map, SetNeighbours_wp]

/-- Helper: a non-existent slot is trivially consistent. -/
theorem neighboursOkAt_none {pts : List TaskPointM} {j : Nat} (h : pts[j]? = none) :
    neighboursOkAt pts j = true := by
  simp [neighboursOkAt, h]

/-- Helper: introduction rule for `neighboursOkAt`. -/
theorem neighboursOkAt_of {pts : List TaskPointM} {j : Nat} {p : TaskPointM}
    (h : pts[j]? = some p)
    (h1 : p.prev = if j = 0 then none else (pts[j - 1]?).map TaskPointM.wp)
    (h2 : p.next = (pts[j + 1]?).map TaskPointM.wp) :
    neighboursOkAt pts j = true := by
  simp [neighboursOkAt, h, h1, h2]

/-- Helper: the two `SetNeighbours` calls issued after an erasure leave
the slots at `position` and `position - 1` with consistent neighbour
links. -/
theorem rewire_ok (u : OrderedTaskState) (position : Nat) :
    neighboursOkAt
      ((if position > 0 then
          SetNeighbours (if position < u.task_points.length then SetNeighbours u position else u)
            (position - 1)
        else (if position < u.task_points.length then SetNeighbours u position else u))).task_points
      position = true ∧
    (0 < position →
      neighboursOkAt
        ((if position > 0 then
            SetNeighbours (if position < u.task_points.length then SetNeighbours u position else u)
              (position - 1)
          else (if position < u.task_points.length then SetNeighbours u position else u))).task_points
        (position - 1) = true) := by
  by_cases hmid : position < u.task_points.length
  · rw [if_pos hmid]
    by_cases h0 : position > 0
    · rw [if_pos h0]
      have hne1 : position ≠ position - 1 := by omega
      have hmain : (SetNeighbours (SetNeighbours u position) (position - 1)).task_points[position]? =
          some { u.task_points.get ⟨position, hmid⟩ with
            prev := if position = 0 then none else (u.task_points[position - 1]?).map TaskPointM.wp,
            next := (u.task_points[position + 1]?).map TaskPointM.wp } := by
        rw [SetNeighbours_get_ne _ _ _ hne1, SetNeighbours_get_self u position hmid]
      constructor
      · refine neighboursOkAt_of hmain ?_ ?_
        · dsimp only
          simp only [SetNeighbours_wp]
        · dsimp only
          simp only [SetNeighbours_wp]
      · intro _
        have hm1 : position - 1 < (SetNeighbours u position).task_points.length := by
          have hl := SetNeighbours_length u position
          omega
        refine neighboursOkAt_of
          (SetNeighbours_get_self (SetNeighbours u position) (position - 1) hm1) ?_ ?_
        · dsimp only
          by_cases hp1 : position - 1 = 0
          · simp [hp1]
          · simp only [if_neg hp1]
            rw [SetNeighbours_get_ne _ _ _ (by omega : position - 1 - 1 ≠ position - 1)]
        · dsimp only
          simp only [SetNeighbours_wp]
    · rw [if_neg h0]
      refine ⟨?_, fun h => absurd h (by omega)⟩
      refine neighboursOkAt_of (SetNeighbours_get_self u position hmid) ?_ ?_
      · dsimp only
        simp [show position = 0 by omega]
      · dsimp only
        simp only [SetNeighbours_wp]
  · rw [if_neg hmid]
    by_cases h0 : position > 0
    · rw [if_pos h0]
      constructor
      · refine neighboursOkAt_none ?_
        apply List.getElem?_eq_none
        have hl := SetNeighbours_length u (position - 1)
        omega
      · intro _
        by_cases hm1 : position - 1 < u.task_points.length
        · refine neighboursOkAt_of (SetNeighbours_get_self u (position - 1) hm1) ?_ ?_
          · dsimp only
            by_cases hp1 : position - 1 = 0
            · simp [hp1]
            · simp only [if_neg hp1]
              rw [SetNeighbours_get_ne _ _ _ (by omega : position - 1 - 1 ≠ position - 1)]
          · dsimp only
            have hpe : position - 1 + 1 = position := by omega
            have h1 : u.task_points[position]? = none := List.getElem?_eq_none (by omega)
            have h2 : (SetNeighbours u (position - 1)).task_points[position]? = none := by
              apply List.getElem?_eq_none
              have hl := SetNeighbours_length u (position - 1)
              omega
            rw [hpe, h1, h2]
        · refine neighboursOkAt_none ?_
          apply List.getElem?_eq_none
          have hl := SetNeighbours_length u (position - 1)
          omega
    · rw [if_neg h0]
      have hp0 : position = 0 := by omega
      subst hp0
      exact ⟨neighboursOkAt_none (List.getElem?_eq_none (by omega)),
        fun h => absurd h (by omega)⟩

/-- C5: `Remove(position)` with `position < task_points.size()` returns
true, erases that slot (the waypoint sequence becomes the erasure),
rewires the neighbours of the slots adjacent to the removed position, and
decrements the active index exactly when `active_task_point > position`
or (`active_task_point > 0` and `active_task_point` equals the
pre-removal size minus 1). -/
theorem Remove_spec (t : OrderedTaskState) (position : Nat)
    (hpos : position < t.task_points.length) :
    (Remove t position).1 = true ∧
    (Remove t position).2.task_points.map TaskPointM.wp =
      (t.task_points.eraseIdx position).map TaskPointM.wp ∧
    (Remove t position).2.active_task_point =
      (if t.active_task_point > position ∨
          (t.active_task_point > 0 ∧ t.active_task_point = t.task_points.length - 1)
        then t.active_task_point - 1 else t.active_task_point) ∧
    neighboursOkAt (Remove t position).2.task_points position = true ∧
    (0 < position →
      neighboursOkAt (Remove t position).2.task_points (position - 1) = true) := by
  have hge : ¬(position ≥ t.task_points.length) := by omega
  simp only [Remove, if_neg hge]
  refine ⟨trivial, ?_, ?_, ?_, ?_⟩
  · split <;> split <;> simp only [SetNeighbours_map_wp]
  · split <;> split <;> simp only [SetNeighbours_active]
  · exact (rewire_ok ⟨t.task_points.eraseIdx position, t.optional_start_points,
      (if t.active_task_point > position ∨
          (t.active_task_point > 0 ∧ t.active_task_point = t.task_points.length - 1)
        then t.active_task_point - 1 else t.active_task_point), t.last_min_location⟩
      position).1
  · exact (rewire_ok ⟨t.task_points.eraseIdx position, t.optional_start_points,
      (if t.active_task_point > position ∨
          (t.active_task_point > 0 ∧ t.active_task_point = t.task_points.length - 1)
        then t.active_task_point - 1 else t.active_task_point), t.last_min_location⟩
      position).2

/-- Witness for C5 at the S6 scenario: a 4-point task with active index
2; `Remove(1)` returns true, the task keeps points 0, 2, 3, the active
index becomes 1, and the slots at 1 and 0 are rewired. -/
theorem Remove_spec_witness :
    (Remove ⟨[plainStart 0, plainPoint 1, plainPoint 2, cleanFinish], [], 2, none⟩ 1).1 =
      true ∧
    (Remove ⟨[plainStart 0, plainPoint 1, plainPoint 2, cleanFinish], [], 2,
        none⟩ 1).2.task_points.map TaskPointM.wp =
      (([plainStart 0, plainPoint 1, plainPoint 2, cleanFinish] :
        List TaskPointM).eraseIdx 1).map TaskPointM.wp ∧
    (Remove ⟨[plainStart 0, plainPoint 1, plainPoint 2, cleanFinish], [], 2,
        none⟩ 1).2.active_task_point =
      (if 2 > 1 ∨ (2 > 0 ∧ 2 = ([plainStart 0, plainPoint 1, plainPoint 2, cleanFinish] :
          List TaskPointM).length - 1)
        then 2 - 1 else 2) ∧
    neighboursOkAt (Remove ⟨[plainStart 0, plainPoint 1, plainPoint 2, cleanFinish], [], 2,
        none⟩ 1).2.task_points 1 = true ∧
    (0 < 1 →
      neighboursOkAt (Remove ⟨[plainStart 0, plainPoint 1, plainPoint 2, cleanFinish], [], 2,
        none⟩ 1).2.task_points 0 = true) :=
  Remove_spec ⟨[plainStart 0, plainPoint 1, plainPoint 2, cleanFinish], [], 2, none⟩ 1
    (by simp)

/-- Helper: a `CheckTransitionPoint` call never changes the waypoint of
the point. -/
theorem checkTransitionPoint_wp (po : PointOracle) (p : TaskPointM) (s : AircraftStateM)
    (te tx a0 is : Bool) :
    (checkTransitionPoint po p s te tx a0 is).1.wp = p.wp := by
  simp only [checkTransitionPoint]
  split_ifs <;> rfl

/-- Helper: with clear incoming flags, the sticky flags after
`CheckTransitionPoint` are exactly the fired transitions. -/
theorem checkTransitionPoint_flags (po : PointOracle) (p : TaskPointM) (s : AircraftStateM)
    (a0 is : Bool) :
    (checkTransitionPoint po p s false false a0 is).2.1 = (po.nearby && po.enter) ∧
    (checkTransitionPoint po p s false false a0 is).2.2.1 = (po.nearby && po.exitZ) := by
  simp only [checkTransitionPoint]
  exact ⟨by simp, by simp⟩

/-- Helper: iterating the optional start points from absolute index `idx`
with clear sticky flags, where the first firing point is `k` slots ahead,
selects exactly that point, examines exactly `k + 1` points, and keeps
the waypoint sequence of the optional list. -/
theorem ctOptGo_spec (o : CTOracle) (state : AircraftStateM) (a0 : Bool)
    (opts : List TaskPointM) (idx k : Nat) (fu : Bool) (hk : k < opts.length)
    (hb : ∀ j, j < k → firesOpt o (idx + j) = false)
    (hf : firesOpt o (idx + k) = true) :
    (ctOptGo o state a0 opts idx false false fu).2.2.2.2.2.1 = some (idx + k) ∧
    (ctOptGo o state a0 opts idx false false fu).2.2.2.2.2.2 = k + 1 ∧
    (ctOptGo o state a0 opts idx false false fu).1.map TaskPointM.wp =
      opts.map TaskPointM.wp := by
  induction opts generalizing idx k fu with
  | nil => simp at hk
  | cons p rest ih =>
    have hflags := checkTransitionPoint_flags (optPointOracle o idx) p state a0 true
    cases k with
    | zero =>
      have hfire : ((checkTransitionPoint (optPointOracle o idx) p state false false a0
          true).2.1 ||
          (checkTransitionPoint (optPointOracle o idx) p state false false a0 true).2.2.1) =
          true := by
        rw [hflags.1, hflags.2]
        have := hf
        simp only [firesOpt, optPointOracle, Nat.add_zero] at this ⊢
        rcases Bool.and_eq_true_iff.mp this with ⟨h1, h2⟩
        rcases Bool.or_eq_true_iff.mp h2 with h3 | h3 <;> simp [h1, h3]
      simp only [ctOptGo, hfire, if_true]
      refine ⟨by simp, by simp, ?_⟩
      simp [checkTransitionPoint_wp]
    | succ k' =>
      have hnof : firesOpt o (idx + 0) = false := hb 0 (by omega)
      have hnofire : ((checkTransitionPoint (optPointOracle o idx) p state false false a0
          true).2.1 ||
          (checkTransitionPoint (optPointOracle o idx) p state false false a0 true).2.2.1) =
          false := by
        rw [hflags.1, hflags.2]
        simp only [firesOpt, optPointOracle, Nat.add_zero] at hnof ⊢
        rcases Bool.and_eq_false_iff.mp hnof with h1 | h1
        · simp [h1]
        · rcases Bool.or_eq_false_iff.mp h1 with ⟨h2, h3⟩
          simp [h2, h3]
      have hrw1 : (checkTransitionPoint (optPointOracle o idx) p state false false a0
          true).2.1 = false := by
        rcases Bool.or_eq_false_iff.mp hnofire with ⟨h1, _⟩
        exact h1
      have hrw2 : (checkTransitionPoint (optPointOracle o idx) p state false false a0
          true).2.2.1 = false := by
        rcases Bool.or_eq_false_iff.mp hnofire with ⟨_, h2⟩
        exact h2
      have hih := ih (idx + 1) k'
        ((fu || (checkTransitionPoint (optPointOracle o idx) p state false false a0
          true).2.2.2.1))
        (by simpa using hk)
        (fun j hj => by
          have := hb (j + 1) (by omega)
          simpa [Nat.add_assoc, Nat.add_comm 1 j] using this)
        (by
          have := hf
          rw [show idx + (k' + 1) = idx + 1 + k' by omega] at this
          exact this)
      simp only [ctOptGo, hnofire, if_false, hrw1, hrw2, Bool.or_self, Bool.false_eq_true,
        List.map_cons]
      refine ⟨?_, ?_, ?_⟩
      · rw [hih.1]
        congr 1
        omega
      · rw [hih.2.1]
      · rw [checkTransitionPoint_wp, hih.2.2]

/-- Helper: `SetNeighbours` preserves the optional-start list length. -/
theorem SetNeighbours_opt_length (t : OrderedTaskState) (p : Nat) :
    (SetNeighbours t p).optional_start_points.length =
      t.optional_start_points.length := by
  simp only [SetNeighbours]
  split
  · by_cases hp0 : p = 0 <;> simp [hp0]
  · rfl

/-- Helper: `SetNeighbours` preserves the optional-start waypoint
sequence. -/
theorem SetNeighbours_opt_map_wp (t : OrderedTaskState) (p : Nat) :
    (SetNeighbours t p).optional_start_points.map TaskPointM.wp =
      t.optional_start_points.map TaskPointM.wp := by
  simp only [SetNeighbours]
  split
  · by_cases hp0 : p = 0
    · simp only [if_pos hp0, List.map_map]
      rfl
    · simp only [if_neg hp0]
  · rfl

/-- Helper: on a non-empty task, `SelectOptionalStart(k)` with `k` in
range swaps the chosen optional start into slot 0, appends the former
front to the optional list, and preserves both sizes. -/
theorem SelectOptionalStart_spec (t : OrderedTaskState) (k : Nat)
    (front : TaskPointM) (rest : List TaskPointM) (hfr : t.task_points = front :: rest)
    (hk : k < t.optional_start_points.length) :
    ((SelectOptionalStart t k).task_points.head?).map TaskPointM.wp =
      (t.optional_start_points[k]?).map TaskPointM.wp ∧
    (SelectOptionalStart t k).task_points.length = t.task_points.length ∧
    (SelectOptionalStart t k).optional_start_points.length =
      t.optional_start_points.length ∧
    ((SelectOptionalStart t k).optional_start_points.getLast?).map TaskPointM.wp =
      some front.wp := by
  have hget : (t.optional_start_points ++ [front]).get? k =
      some (t.optional_start_points.get ⟨k, hk⟩) := by
    rw [List.get?_eq_getElem?, List.getElem?_append_left hk, List.getElem?_eq_getElem hk]
    rfl
  simp only [SelectOptionalStart, hfr, hget]
  have hwp : ∀ (u : OrderedTaskState),
      (((if u.task_points.length > 1 then SetNeighbours u 1 else u)).task_points[0]?).map
        TaskPointM.wp = (u.task_points[0]?).map TaskPointM.wp := by
    intro u
    split
    · rw [SetNeighbours_wp]
    · rfl
  have hlen : ∀ (u : OrderedTaskState),
      ((if u.task_points.length > 1 then SetNeighbours u 1 else u)).task_points.length =
        u.task_points.length := by
    intro u
    split
    · rw [SetNeighbours_length]
    · rfl
  have holen : ∀ (u : OrderedTaskState),
      ((if u.task_points.length > 1 then SetNeighbours u 1 else u)).optional_start_points.length =
        u.optional_start_points.length := by
    intro u
    split
    · rw [SetNeighbours_opt_length]
    · rfl
  have homap : ∀ (u : OrderedTaskState),
      ((if u.task_points.length > 1 then SetNeighbours u 1 else u)).optional_start_points.map
        TaskPointM.wp = u.optional_start_points.map TaskPointM.wp := by
    intro u
    split
    · rw [SetNeighbours_opt_map_wp]
    · rfl
  refine ⟨?_, ?_, ?_, ?_⟩
  · rw [List.head?_eq_getElem?, hwp, SetNeighbours_wp]
    simp only [List.getElem?_cons_zero, Option.map_some, List.getElem?_eq_getElem hk,
      List.get_eq_getElem]
  · rw [hlen, SetNeighbours_length]
    simp [hfr]
  · rw [holen, SetNeighbours_opt_length]
    simp only []
    rw [List.length_eraseIdx]
    simp [hk]
    omega
  · rw [← List.getLast?_map, homap, SetNeighbours_opt_map_wp]
    simp only []
    rw [List.eraseIdx_append_of_lt_length hk, List.map_append]
    simp

/-- C4: when, with position 0 in the scan window, the k-th optional start
point is the first to fire an enter or exit transition during
`CheckTransitionOptionalStart`, that optional start is swapped into
`task_points[0]`, the former `task_points[0]` joins the (end of the)
optional start list, the optional list and the task keep their sizes,
and exactly k + 1 optional starts are examined — none after the firing
one. -/
theorem optional_start_selection (o : CTOracle) (state : AircraftStateM)
    (task : OrderedTaskState) (k : Nat) (hne : task.task_points ≠ [])
    (hk : k < task.optional_start_points.length)
    (hb : ∀ j, j < k → firesOpt o j = false) (hf : firesOpt o k = true) :
    ((CheckTransitionOptionalStart o task state false false).1.task_points.head?).map
        TaskPointM.wp = (task.optional_start_points[k]?).map TaskPointM.wp ∧
    (CheckTransitionOptionalStart o task state false false).1.task_points.length =
      task.task_points.length ∧
    (CheckTransitionOptionalStart o task state false
        false).1.optional_start_points.length =
      task.optional_start_points.length ∧
    ((CheckTransitionOptionalStart o task state false
        false).1.optional_start_points.getLast?).map TaskPointM.wp =
      (task.task_points.head?).map TaskPointM.wp ∧
    (CheckTransitionOptionalStart o task state false false).2.2.2.2.2 = k + 1 := by
  obtain ⟨front, rest, hfr⟩ : ∃ f r, task.task_points = f :: r := by
    cases h : task.task_points with
    | nil => exact absurd h hne
    | cons f r => exact ⟨f, r, rfl⟩
  have hg := ctOptGo_spec o state (decide (task.active_task_point = 0))
    task.optional_start_points 0 k false hk
    (fun j hj => by simpa using hb j hj) (by simpa using hf)
  have hlen1 : (ctOptGo o state (decide (task.active_task_point = 0))
      task.optional_start_points 0 false false false).1.length =
      task.optional_start_points.length := by
    have := congrArg List.length hg.2.2
    simpa using this
  have hk1 : k < (ctOptGo o state (decide (task.active_task_point = 0))
      task.optional_start_points 0 false false false).1.length := by omega
  have hs := SelectOptionalStart_spec
    ⟨task.task_points,
     (ctOptGo o state (decide (task.active_task_point = 0))
        task.optional_start_points 0 false false false).1,
     task.active_task_point, task.last_min_location⟩ k front rest hfr hk1
  have hwpk : (((ctOptGo o state (decide (task.active_task_point = 0))
      task.optional_start_points 0 false false false).1[k]?).map TaskPointM.wp) =
      (task.optional_start_points[k]?).map TaskPointM.wp := by
    have := congrArg (fun l => l[k]?) hg.2.2
    simpa [List.getElem?_map] using this
  simp only [CheckTransitionOptionalStart, hg.1, Nat.zero_add]
  refine ⟨?_, ?_, ?_, ?_, ?_⟩
  · rw [← hwpk]
    exact hs.1
  · exact hs.2.1
  · rw [hs.2.2.1, hlen1]
  · rw [hs.2.2.2, hfr]
    rfl
  · exact hg.2.1

/-- Witness for C4 at the S3 scenario: one primary start (wp 9) plus a
finish, two optional starts (wp 10, wp 11), and an oracle in which only
optional start 1 fires; afterwards slot 0 holds wp 11, the optional list
still has two entries ending in the former primary wp 9, and exactly two
optional starts were examined. -/
theorem optional_start_selection_witness :
    ((CheckTransitionOptionalStart optionalFiresOracle optionalStartTask airborneState false
        false).1.task_points.head?).map TaskPointM.wp =
      (optionalStartTask.optional_start_points[1]?).map TaskPointM.wp ∧
    (CheckTransitionOptionalStart optionalFiresOracle optionalStartTask airborneState false
        false).1.task_points.length = optionalStartTask.task_points.length ∧
    (CheckTransitionOptionalStart optionalFiresOracle optionalStartTask airborneState false
        false).1.optional_start_points.length =
      optionalStartTask.optional_start_points.length ∧
    ((CheckTransitionOptionalStart optionalFiresOracle optionalStartTask airborneState false
        false).1.optional_start_points.getLast?).map TaskPointM.wp =
      (optionalStartTask.task_points.head?).map TaskPointM.wp ∧
    (CheckTransitionOptionalStart optionalFiresOracle optionalStartTask airborneState false
        false).2.2.2.2.2 = 1 + 1 :=
  optional_start_selection optionalFiresOracle airborneState optionalStartTask 1
    (by simp [optionalStartTask]) (by simp [optionalStartTask])
    (fun j hj => by
      interval_cases j
      · rfl)
    (by rfl)

/-- Helper: `SelectOptionalStart` preserves the task length. -/
theorem SelectOptionalStart_length (t : OrderedTaskState) (k : Nat) :
    (SelectOptionalStart t k).task_points.length = t.task_points.length := by
  simp only [SelectOptionalStart]
  split
  · rfl
  · rename_i front rest heq
    split
    · rfl
    · split <;> simp [SetNeighbours_length, heq]

/-- Helper: `SelectOptionalStart` preserves the active index. -/
theorem SelectOptionalStart_active (t : OrderedTaskState) (k : Nat) :
    (SelectOptionalStart t k).active_task_point = t.active_task_point := by
  simp only [SelectOptionalStart]
  split
  · rfl
  · split
    · rfl
    · split <;> simp [SetNeighbours_active]

/-- Helper: `CheckTransitionOptionalStart` preserves the task length. -/
theorem CheckTransitionOptionalStart_length (o : CTOracle) (task : OrderedTaskState)
    (state : AircraftStateM) (te tx : Bool) :
    (CheckTransitionOptionalStart o task state te tx).1.task_points.length =
      task.task_points.length := by
  simp only [CheckTransitionOptionalStart]
  split
  · rw [SelectOptionalStart_length]
  · rfl

/-- Helper: `CheckTransitionOptionalStart` preserves the active index. -/
theorem CheckTransitionOptionalStart_active (o : CTOracle) (task : OrderedTaskState)
    (state : AircraftStateM) (te tx : Bool) :
    (CheckTransitionOptionalStart o task state te tx).1.active_task_point =
      task.active_task_point := by
  simp only [CheckTransitionOptionalStart]
  split
  · rw [SelectOptionalStart_active]
  · rfl

/-- Helper: a `CheckTransitionPoint` call emits only enter and exit
transition events. -/
theorem checkTransitionPoint_events (po : PointOracle) (p : TaskPointM)
    (s : AircraftStateM) (te tx a0 is : Bool) :
    TaskEvent.taskStart ∉ (checkTransitionPoint po p s te tx a0 is).2.2.2.2 ∧
    TaskEvent.taskFinish ∉ (checkTransitionPoint po p s te tx a0 is).2.2.2.2 := by
  simp only [checkTransitionPoint]
  split_ifs <;> simp

/-- Helper: the optional-start loop emits only enter and exit transition
events. -/
theorem ctOptGo_events (o : CTOracle) (state : AircraftStateM) (a0 : Bool)
    (opts : List TaskPointM) (idx : Nat) (te tx fu : Bool) :
    TaskEvent.taskStart ∉ (ctOptGo o state a0 opts idx te tx fu).2.2.2.2.1 ∧
    TaskEvent.taskFinish ∉ (ctOptGo o state a0 opts idx te tx fu).2.2.2.2.1 := by
  induction opts generalizing idx te tx fu with
  | nil => simp [ctOptGo]
  | cons p rest ih =>
    have hpt := checkTransitionPoint_events (optPointOracle o idx) p state te tx a0 true
    simp only [ctOptGo]
    split
    · exact hpt
    · constructor <;> (rw [List.mem_append]; push_neg)
      · exact ⟨hpt.1, (ih _ _ _ _).1⟩
      · exact ⟨hpt.2, (ih _ _ _ _).2⟩

/-- Helper: `CheckTransitionOptionalStart` emits only enter and exit
transition events. -/
theorem CheckTransitionOptionalStart_events (o : CTOracle) (task : OrderedTaskState)
    (state : AircraftStateM) (te tx : Bool) :
    TaskEvent.taskStart ∉ (CheckTransitionOptionalStart o task state te tx).2.2.2.2.1 ∧
    TaskEvent.taskFinish ∉ (CheckTransitionOptionalStart o task state te tx).2.2.2.2.1 := by
  simp only [CheckTransitionOptionalStart]
  exact ctOptGo_events o state _ task.optional_start_points 0 te tx false

/-- Helper: `SetActiveTaskPoint` preserves the task length. -/
theorem SetActiveTaskPointF_length (t : OrderedTaskState) (armed : Bool) (idx : Nat) :
    (SetActiveTaskPointF t armed idx).1.task_points.length = t.task_points.length := by
  simp only [SetActiveTaskPointF]
  split <;> rfl

/-- Helper: `SetActiveTaskPoint` either keeps the active index or moves
it to an in-range index. -/
theorem SetActiveTaskPointF_active (t : OrderedTaskState) (armed : Bool) (idx : Nat) :
    (SetActiveTaskPointF t armed idx).1.active_task_point = t.active_task_point ∨
    ((SetActiveTaskPointF t armed idx).1.active_task_point = idx ∧
      idx < t.task_points.length) := by
  simp only [SetActiveTaskPointF]
  split
  · exact Or.inl rfl
  · rename_i h
    push_neg at h
    exact Or.inr ⟨rfl, h.1⟩

/-- Helper: the optional-start phase preserves the task length. -/
theorem ctOptPhase_length (o : CTOracle) (state : AircraftStateM) (i : Nat)
    (task : OrderedTaskState) :
    (ctOptPhase o state i task).1.task_points.length = task.task_points.length := by
  simp only [ctOptPhase]
  split
  · exact CheckTransitionOptionalStart_length o task state false false
  · rfl

/-- Helper: the optional-start phase preserves the active index. -/
theorem ctOptPhase_active (o : CTOracle) (state : AircraftStateM) (i : Nat)
    (task : OrderedTaskState) :
    (ctOptPhase o state i task).1.active_task_point = task.active_task_point := by
  simp only [ctOptPhase]
  split
  · exact CheckTransitionOptionalStart_active o task state false false
  · rfl

/-- Helper: the optional-start phase emits only transition events. -/
theorem ctOptPhase_events (o : CTOracle) (state : AircraftStateM) (i : Nat)
    (task : OrderedTaskState) :
    TaskEvent.taskStart ∉ (ctOptPhase o state i task).2.2.2.2 ∧
    TaskEvent.taskFinish ∉ (ctOptPhase o state i task).2.2.2.2 := by
  simp only [ctOptPhase]
  split
  · exact CheckTransitionOptionalStart_events o task state false false
  · simp

/-- Helper: the advance block preserves the task length. -/
theorem ctAdvance_length (o : CTOracle) (n_task i : Nat) (task1 : OrderedTaskState)
    (p' : TaskPointM) (te1 tx1 armed : Bool) :
    (ctAdvance o n_task i task1 p' te1 tx1 armed).1.task_points.length =
      task1.task_points.length := by
  simp only [ctAdvance]
  split_ifs <;> first | rfl | (rw [SetActiveTaskPointF_length])

/-- Helper: the advance block either keeps the active index or moves it
to `active + 1`, staying in range. -/
theorem ctAdvance_active (o : CTOracle) (n_task i : Nat) (task1 : OrderedTaskState)
    (p' : TaskPointM) (te1 tx1 armed : Bool) :
    (ctAdvance o n_task i task1 p' te1 tx1 armed).1.active_task_point =
      task1.active_task_point ∨
    ((ctAdvance o n_task i task1 p' te1 tx1 armed).1.active_task_point =
        task1.active_task_point + 1 ∧
      (ctAdvance o n_task i task1 p' te1 tx1 armed).1.active_task_point <
        task1.task_points.length) := by
  simp only [ctAdvance]
  split_ifs with h1 h2 h3
  · rcases SetActiveTaskPointF_active task1 false (i + 1) with h | ⟨h, hlt⟩
    · exact Or.inl h
    · refine Or.inr ⟨?_, ?_⟩
      · rw [h, h1]
      · rw [h]
        exact hlt
  · exact Or.inl rfl
  · exact Or.inl rfl
  · exact Or.inl rfl
  · exact Or.inl rfl

/-- Helper: the advance block emits only advance and arming events. -/
theorem ctAdvance_events (o : CTOracle) (n_task i : Nat) (task1 : OrderedTaskState)
    (p' : TaskPointM) (te1 tx1 armed : Bool) :
    TaskEvent.taskStart ∉ (ctAdvance o n_task i task1 p' te1 tx1 armed).2.2.1 ∧
    TaskEvent.taskFinish ∉ (ctAdvance o n_task i task1 p' te1 tx1 armed).2.2.1 := by
  simp only [ctAdvance]
  split_ifs <;> try simp
  split <;> simp

/-- Helper: one loop iteration preserves the task length. -/
theorem ctBody_length (o : CTOracle) (state : AircraftStateM) (n i : Nat)
    (ls : CTLoopState) :
    (ctBody o state n i ls).1.task.task_points.length =
      ls.task.task_points.length := by
  simp only [ctBody]
  split
  · exact ctOptPhase_length o state i ls.task
  · rw [ctAdvance_length]
    simp only [List.length_set]
    exact ctOptPhase_length o state i ls.task

/-- Helper: one loop iteration either keeps the active index or moves it
up by one, staying in range. -/
theorem ctBody_active (o : CTOracle) (state : AircraftStateM) (n i : Nat)
    (ls : CTLoopState) :
    (ctBody o state n i ls).1.task.active_task_point = ls.task.active_task_point ∨
    ((ctBody o state n i ls).1.task.active_task_point =
        ls.task.active_task_point + 1 ∧
      (ctBody o state n i ls).1.task.active_task_point <
        ls.task.task_points.length) := by
  simp only [ctBody]
  split
  · exact Or.inl (ctOptPhase_active o state i ls.task)
  · rename_i p heq
    have hopt := ctOptPhase_active o state i ls.task
    have hlen := ctOptPhase_length o state i ls.task
    rcases ctAdvance_active o n i
        ⟨(ctOptPhase o state i ls.task).1.task_points.set i
          (checkTransitionPoint (taskPointOracle o i) p state
            (ctOptPhase o state i ls.task).2.1 (ctOptPhase o state i ls.task).2.2.1
            (decide ((ctOptPhase o state i ls.task).1.active_task_point = 0)) (decide (i = 0))).1,
         (ctOptPhase o state i ls.task).1.optional_start_points,
         (ctOptPhase o state i ls.task).1.active_task_point,
         (ctOptPhase o state i ls.task).1.last_min_location⟩
        (checkTransitionPoint (taskPointOracle o i) p state
            (ctOptPhase o state i ls.task).2.1 (ctOptPhase o state i ls.task).2.2.1
            (decide ((ctOptPhase o state i ls.task).1.active_task_point = 0)) (decide (i = 0))).1
        (checkTransitionPoint (taskPointOracle o i) p state
            (ctOptPhase o state i ls.task).2.1 (ctOptPhase o state i ls.task).2.2.1
            (decide ((ctOptPhase o state i ls.task).1.active_task_point = 0)) (decide (i = 0))).2.1
        (checkTransitionPoint (taskPointOracle o i) p state
            (ctOptPhase o state i ls.task).2.1 (ctOptPhase o state i ls.task).2.2.1
            (decide ((ctOptPhase o state i ls.task).1.active_task_point = 0)) (decide (i = 0))).2.2.1
        ls.armed with h | ⟨h, hlt⟩
    · left
      rw [h]
      exact hopt
    · right
      constructor
      · rw [h]
        simp only []
        rw [hopt]
      · simp only [List.length_set] at hlt
        rw [hlen] at hlt
        exact hlt

/-- Helper: one loop iteration never emits `TaskStart` or `TaskFinish`. -/
theorem ctBody_events (o : CTOracle) (state : AircraftStateM) (n i : Nat)
    (ls : CTLoopState) :
    (TaskEvent.taskStart ∉ ls.events →
      TaskEvent.taskStart ∉ (ctBody o state n i ls).1.events) ∧
    (TaskEvent.taskFinish ∉ ls.events →
      TaskEvent.taskFinish ∉ (ctBody o state n i ls).1.events) := by
  simp only [ctBody]
  split
  · constructor
    · intro h
      simp only [List.mem_append, not_or]
      exact ⟨h, (ctOptPhase_events o state i ls.task).1⟩
    · intro h
      simp only [List.mem_append, not_or]
      exact ⟨h, (ctOptPhase_events o state i ls.task).2⟩
  · constructor
    · intro h
      simp only [List.mem_append, not_or]
      exact ⟨⟨h, (ctOptPhase_events o state i ls.task).1,
        (checkTransitionPoint_events _ _ _ _ _ _ _).1⟩,
        (ctAdvance_events _ _ _ _ _ _ _ _).1⟩
    · intro h
      simp only [List.mem_append, not_or]
      exact ⟨⟨h, (ctOptPhase_events o state i ls.task).2,
        (checkTransitionPoint_events _ _ _ _ _ _ _).2⟩,
        (ctAdvance_events _ _ _ _ _ _ _ _).2⟩

/-- Helper: the transitions loop preserves the task length. -/
theorem ctLoop_length (o : CTOracle) (state : AircraftStateM) (n t_max : Nat) :
    ∀ (fuel i : Nat) (ls : CTLoopState),
      (ctLoop o state n t_max fuel i ls).task.task_points.length =
        ls.task.task_points.length := by
  intro fuel
  induction fuel with
  | zero => intro i ls; rfl
  | succ fuel ih =>
    intro i ls
    simp only [ctLoop]
    split
    · rfl
    · rw [ih]
      exact ctBody_length o state n i ls

/-- Helper: the transitions loop never decreases the active index. -/
theorem ctLoop_active_mono (o : CTOracle) (state : AircraftStateM) (n t_max : Nat) :
    ∀ (fuel i : Nat) (ls : CTLoopState),
      ls.task.active_task_point ≤
        (ctLoop o state n t_max fuel i ls).task.active_task_point := by
  intro fuel
  induction fuel with
  | zero => intro i ls; exact Nat.le_refl _
  | succ fuel ih =>
    intro i ls
    simp only [ctLoop]
    split
    · exact Nat.le_refl _
    · refine Nat.le_trans ?_ (ih _ _)
      rcases ctBody_active o state n i ls with h | ⟨h, _⟩
      · rw [h]
      · rw [h]
        omega

/-- Helper: the transitions loop preserves the invariant
`active_task_point < task_points.length`. -/
theorem ctLoop_invariant (o : CTOracle) (state : AircraftStateM) (n t_max : Nat) :
    ∀ (fuel i : Nat) (ls : CTLoopState),
      ls.task.active_task_point < ls.task.task_points.length →
      (ctLoop o state n t_max fuel i ls).task.active_task_point <
        (ctLoop o state n t_max fuel i ls).task.task_points.length := by
  intro fuel
  induction fuel with
  | zero => intro i ls h; exact h
  | succ fuel ih =>
    intro i ls h
    simp only [ctLoop]
    split
    · exact h
    · refine ih _ _ ?_
      have hlen := ctBody_length o state n i ls
      rcases ctBody_active o state n i ls with hact | ⟨hact, hlt⟩
      · omega
      · omega

/-- Helper: the transitions loop never emits `TaskStart` or `TaskFinish`. -/
theorem ctLoop_events (o : CTOracle) (state : AircraftStateM) (n t_max : Nat) :
    ∀ (fuel i : Nat) (ls : CTLoopState),
      (TaskEvent.taskStart ∉ ls.events →
        TaskEvent.taskStart ∉ (ctLoop o state n t_max fuel i ls).events) ∧
      (TaskEvent.taskFinish ∉ ls.events →
        TaskEvent.taskFinish ∉ (ctLoop o state n t_max fuel i ls).events) := by
  intro fuel
  induction fuel with
  | zero => intro i ls; exact ⟨fun h => h, fun h => h⟩
  | succ fuel ih =>
    intro i ls
    simp only [ctLoop]
    split
    · exact ⟨fun h => h, fun h => h⟩
    · exact ⟨fun h => (ih _ _).1 ((ctBody_events o state n i ls).1 h),
        fun h => (ih _ _).2 ((ctBody_events o state n i ls).2 h)⟩

/-- Helper: `setBackFaiHeight` preserves the length. -/
theorem setBackFaiHeight_length (pts : List TaskPointM) (h : ℚ) :
    (setBackFaiHeight pts h).length = pts.length := by
  simp only [setBackFaiHeight]
  split <;> simp

/-- Helper: the tail of `CheckTransitions` preserves the task length. -/
theorem checkTransitionsTail_length (o : CTOracle) (task : OrderedTaskState)
    (stats : TaskStatsM) (lt : ℚ) (lf : Bool) :
    (checkTransitionsTail o task stats lt lf).2.1.task_points.length =
      task.task_points.length := by
  simp only [checkTransitionsTail]
  split
  · split
    · split
      · exact setBackFaiHeight_length _ _
      · rfl
    · rfl
  · rfl

/-- Helper: the tail of `CheckTransitions` preserves the active index. -/
theorem checkTransitionsTail_active (o : CTOracle) (task : OrderedTaskState)
    (stats : TaskStatsM) (lt : ℚ) (lf : Bool) :
    (checkTransitionsTail o task stats lt lf).2.1.active_task_point =
      task.active_task_point := by
  simp only [checkTransitionsTail]
  split
  · split
    · split <;> rfl
    · rfl
  · rfl

/-- Helper: the shape of a successful `Remove`: the length shrinks by one
and the active index follows the source's decrement rule. -/
theorem Remove_shape (t : OrderedTaskState) (pos : Nat)
    (hpos : pos < t.task_points.length) :
    (Remove t pos).2.task_points.length = t.task_points.length - 1 ∧
    (Remove t pos).2.active_task_point =
      (if t.active_task_point > pos ∨
          (t.active_task_point > 0 ∧ t.active_task_point = t.task_points.length - 1)
        then t.active_task_point - 1 else t.active_task_point) := by
  have hge : ¬(pos ≥ t.task_points.length) := by omega
  simp only [Remove, if_neg hge]
  constructor
  · split <;> split <;>
      simp [SetNeighbours_length, List.length_eraseIdx, hpos]
  · split <;> split <;> simp [SetNeighbours_active]

/-- Helper: `Append` preserves the invariant
`active_task_point < task_points.length`. -/
theorem Append_invariant (t : OrderedTaskState) (tp : TaskPointM)
    (hinv : t.active_task_point < t.task_points.length) :
    (OrderedTask.Append t tp).2.active_task_point <
      (OrderedTask.Append t tp).2.task_points.length := by
  simp only [OrderedTask.Append]
  split
  · rename_i lastp heq
    split
    · exact hinv
    · simp only [SetNeighbours_active, SetNeighbours_length, List.length_append,
        List.length_cons]
      omega
  · rename_i heq
    have : t.task_points = [] := List.getLast?_eq_none_iff.mp heq
    rw [this] at hinv
    simp at hinv

/-- Helper: `Insert` preserves the invariant
`active_task_point < task_points.length`. -/
theorem Insert_invariant (t : OrderedTaskState) (tp : TaskPointM) (pos : Nat)
    (hinv : t.active_task_point < t.task_points.length) :
    (OrderedTask.Insert t tp pos).2.active_task_point <
      (OrderedTask.Insert t tp pos).2.task_points.length := by
  simp only [OrderedTask.Insert]
  split
  · exact Append_invariant t tp hinv
  · rename_i hlt
    push_neg at hlt
    have hle : pos ≤ t.task_points.length := by omega
    split_ifs <;>
      first
        | exact hinv
        | (simp only [SetNeighbours_active, SetNeighbours_length,
            List.length_insertIdx _ _ hle]
           omega)

/-- C9: the invariant `active_task_point < task_points.size()` is
preserved by `Remove` (whenever the resulting task is non-empty), by
`Insert`, by `SetActiveTaskPoint` and by `CheckTransitions`; moreover a
single `CheckTransitions` call never decreases the active index, and when
the aircraft is not flying or the task has no start point the call
returns false with no state change and no events. -/
theorem active_index_invariants :
    (∀ (t : OrderedTaskState) (pos : Nat),
      t.active_task_point < t.task_points.length →
      (Remove t pos).2.task_points ≠ [] →
      (Remove t pos).2.active_task_point < (Remove t pos).2.task_points.length) ∧
    (∀ (t : OrderedTaskState) (tp : TaskPointM) (pos : Nat),
      t.active_task_point < t.task_points.length →
      (OrderedTask.Insert t tp pos).2.active_task_point <
        (OrderedTask.Insert t tp pos).2.task_points.length) ∧
    (∀ (t : OrderedTaskState) (armed : Bool) (idx : Nat),
      t.active_task_point < t.task_points.length →
      (SetActiveTaskPointF t armed idx).1.active_task_point <
        (SetActiveTaskPointF t armed idx).1.task_points.length) ∧
    (∀ (st : EngineState) (o : CTOracle) (a b : AircraftStateM),
      st.task.active_task_point < st.task.task_points.length →
      (CheckTransitions st o a b).2.1.task.active_task_point <
        (CheckTransitions st o a b).2.1.task.task_points.length) ∧
    (∀ (st : EngineState) (o : CTOracle) (a b : AircraftStateM),
      st.task.active_task_point ≤
        (CheckTransitions st o a b).2.1.task.active_task_point) ∧
    (∀ (st : EngineState) (o : CTOracle) (a b : AircraftStateM),
      a.flying = false ∨ taskpointStart st.task = none →
      CheckTransitions st o a b = (false, st, [])) := by
  refine ⟨?_, ?_, ?_, ?_, ?_, ?_⟩
  · intro t pos hinv hne
    by_cases hpos : pos < t.task_points.length
    · obtain ⟨hlen, hact⟩ := Remove_shape t pos hpos
      have hpos' : 0 < (Remove t pos).2.task_points.length := List.length_pos.mpr hne
      rw [hlen] at hpos'
      rw [hact, hlen]
      split
      · rename_i h
        rcases h with h | ⟨h1, h2⟩ <;> omega
      · rename_i h
        push_neg at h
        by_cases h0 : t.active_task_point = 0
        · omega
        · have := h.2 (by omega)
          omega
    · have hge : pos ≥ t.task_points.length := by omega
      simp only [Remove, if_pos hge]
      exact hinv
  · intro t tp pos hinv
    exact Insert_invariant t tp pos hinv
  · intro t armed idx hinv
    simp only [SetActiveTaskPointF]
    split
    · exact hinv
    · rename_i h
      push_neg at h
      exact h.1
  · intro st o a b hinv
    simp only [CheckTransitions]
    split
    · exact hinv
    · split
      · exact hinv
      · split
        · exact hinv
        · dsimp only
          rw [checkTransitionsTail_active, checkTransitionsTail_length]
          exact ctLoop_invariant o a _ _ _ _ ⟨st.task, st.armed, [], false⟩ hinv
  · intro st o a b
    simp only [CheckTransitions]
    split
    · exact Nat.le_refl _
    · split
      · exact Nat.le_refl _
      · split
        · exact Nat.le_refl _
        · dsimp only
          rw [checkTransitionsTail_active]
          exact ctLoop_active_mono o a _ _ _ _ ⟨st.task, st.armed, [], false⟩
  · intro st o a b h
    rcases h with hfly | hstart
    · simp only [CheckTransitions]
      split
      · rfl
      · rw [if_pos (by simp [hfly])]
    · simp only [CheckTransitions, hstart]

/-- Witness for C9: removing slot 0 of a started two-point task with
active index 1 keeps the invariant, and a non-flying fix makes
`CheckTransitions` a silent no-op. -/
theorem active_index_invariants_witness :
    (Remove ⟨[plainStart 1, cleanFinish], [], 1, none⟩ 0).2.active_task_point <
      (Remove ⟨[plainStart 1, cleanFinish], [], 1, none⟩ 0).2.task_points.length ∧
    CheckTransitions startedEngine silentOracle ⟨200, 0, 0, false⟩ airborneState =
      (false, startedEngine, []) :=
  ⟨active_index_invariants.1 ⟨[plainStart 1, cleanFinish], [], 1, none⟩ 0 (by simp)
      (by decide),
   active_index_invariants.2.2.2.2.2 startedEngine silentOracle ⟨200, 0, 0, false⟩
      airborneState (Or.inl rfl)⟩

/-- Helper: a cached finish point implies more than one task point. -/
theorem taskpointFinish_some_len (t : OrderedTaskState) (f : TaskPointM)
    (hf : taskpointFinish t = some f) : 1 < t.task_points.length := by
  simp only [taskpointFinish] at hf
  split at hf
  · assumption
  · cases hf

/-- Helper: a cached start point implies a non-empty task. -/
theorem taskpointStart_some_ne (t : OrderedTaskState) (s : TaskPointM)
    (hs : taskpointStart t = some s) : t.task_points ≠ [] := by
  simp only [taskpointStart] at hs
  intro h
  rw [h] at hs
  cases hs

/-- Helper: rewriting the finish height of the back point keeps the
cached start point. -/
theorem taskpointStart_setBack (t : OrderedTaskState) (X : ℚ)
    (hlen : 1 < t.task_points.length) :
    taskpointStart { t with task_points := setBackFaiHeight t.task_points X } =
      taskpointStart t := by
  simp only [setBackFaiHeight]
  split
  · rename_i p hp
    cases h : t.task_points with
    | nil =>
      rw [h] at hlen
      simp at hlen
    | cons a rest =>
      have hr : 1 ≤ rest.length := by
        rw [h] at hlen
        simp at hlen
        omega
      have hidx : (a :: rest).length - 1 = (rest.length - 1) + 1 := by
        simp
        omega
      simp only [taskpointStart, h, hidx, List.set]
  · rfl

/-- Helper: the tail of `CheckTransitions` keeps the cached start
point. -/
theorem checkTransitionsTail_start (o : CTOracle) (task : OrderedTaskState)
    (stats : TaskStatsM) (lt : ℚ) (lf : Bool) :
    taskpointStart (checkTransitionsTail o task stats lt lf).2.1 =
      taskpointStart task := by
  simp only [checkTransitionsTail]
  split
  · split
    · split
      · rename_i f hf
        exact taskpointStart_setBack task _ (taskpointFinish_some_len task f hf)
      · rfl
    · rfl
  · rfl

/-- Helper: rewriting the finish height of the back point updates the
cached finish point's stored height. -/
theorem taskpointFinish_setBack (t : OrderedTaskState) (X : ℚ) (f0 : TaskPointM)
    (hf : taskpointFinish t = some f0) :
    taskpointFinish { t with task_points := setBackFaiHeight t.task_points X } =
      some { f0 with fai_finish_height := X } := by
  have hlen : 1 < t.task_points.length := taskpointFinish_some_len t f0 hf
  simp only [taskpointFinish, if_pos hlen] at hf
  cases h : t.task_points.getLast? with
  | none =>
    rw [h] at hf
    cases hf
  | some p =>
    rw [h] at hf
    dsimp only at hf
    have hk : p.kind = TPKind.finish ∧ p = f0 := by
      by_cases hk : p.kind = TPKind.finish
      · rw [if_pos hk] at hf
        exact ⟨hk, by injection hf⟩
      · rw [if_neg hk] at hf
        cases hf
    simp only [setBackFaiHeight, h]
    have hlen2 : (t.task_points.set (t.task_points.length - 1)
        { p with fai_finish_height := X }).length = t.task_points.length := by
      simp
    have hlast : (t.task_points.set (t.task_points.length - 1)
        { p with fai_finish_height := X }).getLast? =
        some { p with fai_finish_height := X } := by
      rw [List.getLast?_eq_getElem?, hlen2]
      exact List.getElem?_set_self (by omega)
    simp only [taskpointFinish, hlen2, if_pos hlen, hlast]
    rw [if_pos (by simp [hk.1])]
    rw [hk.2]

/-- Helper: the tail of `CheckTransitions`, whenever the start point has
been exited, repopulates `stats.start` from the exited state, clears
`pev_based_advance_ready`, stores the recomputed FAI finish height, and
fires `TaskStart` exactly when the recorded start time exceeds the value
captured at the beginning of the call. -/
theorem checkTransitionsTail_spec (o : CTOracle) (task : OrderedTaskState)
    (stats : TaskStatsM) (lt : ℚ) (lf : Bool) (s : TaskPointM)
    (hs : taskpointStart task = some s) (hex : s.has_exited = true) :
    (checkTransitionsTail o task stats lt lf).1.start =
      ⟨false, s.exited_time, s.exited_alt, s.exited_gs⟩ ∧
    (checkTransitionsTail o task stats lt lf).1.pev_based_advance_ready = false ∧
    (∀ f, taskpointFinish (checkTransitionsTail o task stats lt lf).2.1 = some f →
      f.fai_finish_height = o.calc_finish_height s.exited_alt) ∧
    (TaskEvent.taskStart ∈ (checkTransitionsTail o task stats lt lf).2.2 ↔
      s.exited_time > lt) := by
  have hstarted : TaskStarted task false = true := by
    simp [TaskStarted, hs, hex]
  simp only [checkTransitionsTail, hstarted, if_true, hs]
  refine ⟨rfl, by trivial, ?_, ?_⟩
  · split
    · rename_i f0 hf0
      intro f hf
      rw [taskpointFinish_setBack task _ f0 hf0] at hf
      injection hf with hf
      rw [← hf]
      rfl
    · rename_i hf0
      intro f hf
      rw [hf0] at hf
      cases hf
  · by_cases hgt : s.exited_time > lt
    · simp only [StartStatsM.SetStarted, if_pos hgt]
      simp [hgt]
    · simp only [StartStatsM.SetStarted, if_neg hgt]
      simp [hgt]

/-- C2 (amended): during a `CheckTransitions` call that does not return
early (a start point is cached and the aircraft is flying), whenever the
start point has been exited after the transition loop — at EVERY such
call, not only the one where `TaskStarted()` first becomes true —
`stats.start` is (re)populated from the start point's exited state
(time, altitude, ground speed, with `advanced_by_pev` false),
`pev_based_advance_ready` is cleared, the FAI finish height of the
finish point is recomputed from the start altitude, and the `TaskStart`
event fires exactly when the recorded start time exceeds the value
captured at the beginning of the call — hence exactly once per start. -/
theorem checkTransitions_start_effects (st : EngineState) (o : CTOracle)
    (a b : AircraftStateM) (s : TaskPointM)
    (hstart : (taskpointStart st.task).isSome = true)
    (hfly : a.flying = true)
    (hs : taskpointStart (CheckTransitions st o a b).2.1.task = some s)
    (hex : s.has_exited = true) :
    (CheckTransitions st o a b).2.1.stats.start =
      ⟨false, s.exited_time, s.exited_alt, s.exited_gs⟩ ∧
    (CheckTransitions st o a b).2.1.stats.pev_based_advance_ready = false ∧
    (∀ f, taskpointFinish (CheckTransitions st o a b).2.1.task = some f →
      f.fai_finish_height = o.calc_finish_height s.exited_alt) ∧
    (TaskEvent.taskStart ∈ (CheckTransitions st o a b).2.2 ↔
      s.exited_time > st.stats.start.time) := by
  obtain ⟨s0, hs0⟩ := Option.isSome_iff_exists.mp hstart
  have hne := taskpointStart_some_ne st.task s0 hs0
  have hlen0 : ¬(st.task.task_points.length = 0) := by
    intro h
    cases hl : st.task.task_points with
    | nil => exact hne hl
    | cons x xs => rw [hl] at h; simp at h
  simp only [CheckTransitions, hs0, hfly, not_true, if_false, if_neg hlen0] at hs ⊢
  rw [checkTransitionsTail_start] at hs
  have hspec := checkTransitionsTail_spec o _ st.stats st.stats.start.time
    st.stats.task_finished s hs hex
  refine ⟨hspec.1, hspec.2.1, hspec.2.2.1, ?_⟩
  have hnotin : TaskEvent.taskStart ∉
      (ctLoop o a st.task.task_points.length
        (min (st.task.task_points.length - 1) st.task.active_task_point)
        (min (st.task.task_points.length - 1) st.task.active_task_point + 2)
        (st.task.active_task_point - 1)
        ⟨st.task, st.armed, [], false⟩).events :=
    (ctLoop_events o a _ _ _ _ ⟨st.task, st.armed, [], false⟩).1 (by simp)
  rw [List.mem_append, or_iff_right hnotin]
  exact hspec.2.2.2

/-- Counterexample to C2 as stated: on a task whose start was already
exited before the call (`TaskStarted()` true and no `TaskStart` event
fires during the call), `pev_based_advance_ready` — raised again by a
later pilot event — is nevertheless cleared by `CheckTransitions`: the
clearing is NOT restricted to the call where `TaskStarted()` first
becomes true. -/
theorem checkTransitions_clears_pev_counterexample :
    TaskStarted startedEngine.task false = true ∧
    startedEngine.stats.pev_based_advance_ready = true ∧
    (CheckTransitions startedEngine silentOracle airborneState
      airborneState).2.1.stats.pev_based_advance_ready = false ∧
    (CheckTransitions startedEngine silentOracle airborneState airborneState).2.2 = [] := by
  refine ⟨rfl, rfl, ?_, ?_⟩ <;> rfl

/-- Witness for the amended C2 at the started two-point task: the stats
are repopulated from the exited state (time 100 s, altitude 1000 m,
ground speed 30 m/s), the pilot-event flag is cleared, the finish height
is recomputed, and no `TaskStart` fires because the recorded start time
did not increase. -/
theorem checkTransitions_start_effects_witness :
    (CheckTransitions startedEngine silentOracle airborneState
        airborneState).2.1.stats.start =
      ⟨false, exitedStart.exited_time, exitedStart.exited_alt, exitedStart.exited_gs⟩ ∧
    (CheckTransitions startedEngine silentOracle airborneState
        airborneState).2.1.stats.pev_based_advance_ready = false ∧
    (∀ f, taskpointFinish (CheckTransitions startedEngine silentOracle airborneState
        airborneState).2.1.task = some f →
      f.fai_finish_height = silentOracle.calc_finish_height exitedStart.exited_alt) ∧
    (TaskEvent.taskStart ∈ (CheckTransitions startedEngine silentOracle airborneState
        airborneState).2.2 ↔
      exitedStart.exited_time > startedEngine.stats.start.time) :=
  checkTransitions_start_effects startedEngine silentOracle airborneState airborneState
    exitedStart rfl rfl (by rfl) rfl
